import Mathlib

/-! # Hydrate (Water-Drinking-App): a shallow embedding of `src/app.js`

The module-level variables of `app.js` (`entries`, `currentUser`) and the remote
store behind the `supabase` client become fields of an explicit `World` value,
the variable `profile` a `Profile` value; every function of the source that the
properties below talk about is a Lean function on these values.

Conventions of the embedding

* A JavaScript number is a `JsNum`: `NaN`, the two infinities, or a finite value,
  a rational. Sums, products, quotients and `Number` of a string round their exact
  result to binary64 (`roundDouble`), as IEEE arithmetic does; the sign of zero is
  not modelled.
* A JavaScript string is a Lean `String`, read as its UTF-16 code units (`utf16`)
  where the source counts them: `s.slice(0, 10)` is the first ten code units.
* A value of unknown type, the argument of `addEntry`, is a `JsValue`.
* A `Date` is its time value, an `Int` of milliseconds since the epoch; the host's
  time zone is an explicit `TimeZone` argument.
* Values the environment supplies during one operation (the random id, the clock,
  the outcome of each remote call) are the fields of an `Env` argument.
-/

namespace Hydrate

/-! ## JavaScript numbers -/

/-- A JavaScript number: `NaN`, `Infinity`, `-Infinity` or a finite value. -/
inductive JsNum where
  | nan
  | posInf
  | negInf
  | fin (q : ℚ)
  deriving DecidableEq

/-- The integer nearest to a rational, a tie going to the even one. -/
def roundHalfEven (x : ℚ) : Int :=
  if x - ((⌊x⌋ : Int) : ℚ) < 1 / 2 then ⌊x⌋
  else if 1 / 2 < x - ((⌊x⌋ : Int) : ℚ) then ⌊x⌋ + 1
  else if ⌊x⌋ % 2 = 0 then ⌊x⌋ else ⌊x⌋ + 1

/-- The binary exponent of a rational: the `e` with `2 ^ e ≤ |q| < 2 ^ (e + 1)`. -/
def binade (q : ℚ) : Int := Int.log 2 |q|

/-- The distance between neighbouring binary64 values around a rational: 53
significant bits, and `2 ^ (-1074)` in the subnormal range. -/
def ulp (q : ℚ) : ℚ := (2 : ℚ) ^ (max (binade q) (-1022) - 52)

/-- The binary64 value of a rational, as every arithmetic operation of JavaScript
rounds its exact result: the nearest representable value, a tie going to the even
significand, and an infinity from `2 ^ 1024` on. -/
def roundDouble (q : ℚ) : JsNum :=
  if (2 : ℚ) ^ (1024 : Int) ≤ |((roundHalfEven (q / ulp q) : Int) : ℚ) * ulp q| then
    (if 0 < q then JsNum.posInf else JsNum.negInf)
  else JsNum.fin (((roundHalfEven (q / ulp q) : Int) : ℚ) * ulp q)

namespace JsNum

/-- The number `x + y`. -/
def add : JsNum → JsNum → JsNum
  | nan, _ => nan
  | _, nan => nan
  | posInf, negInf => nan
  | negInf, posInf => nan
  | posInf, _ => posInf
  | _, posInf => posInf
  | negInf, _ => negInf
  | _, negInf => negInf
  | fin a, fin b => roundDouble (a + b)

/-- The number `x * y`. -/
def mul : JsNum → JsNum → JsNum
  | nan, _ => nan
  | _, nan => nan
  | posInf, posInf => posInf
  | posInf, negInf => negInf
  | negInf, posInf => negInf
  | negInf, negInf => posInf
  | posInf, fin b => if b = 0 then nan else if 0 < b then posInf else negInf
  | negInf, fin b => if b = 0 then nan else if 0 < b then negInf else posInf
  | fin a, posInf => if a = 0 then nan else if 0 < a then posInf else negInf
  | fin a, negInf => if a = 0 then nan else if 0 < a then negInf else posInf
  | fin a, fin b => roundDouble (a * b)

/-- The number `x / y` (a zero divisor is `+0`). -/
def div : JsNum → JsNum → JsNum
  | nan, _ => nan
  | _, nan => nan
  | posInf, posInf => nan
  | posInf, negInf => nan
  | negInf, posInf => nan
  | negInf, negInf => nan
  | posInf, fin b => if 0 ≤ b then posInf else negInf
  | negInf, fin b => if 0 ≤ b then negInf else posInf
  | fin _, posInf => fin 0
  | fin _, negInf => fin 0
  | fin a, fin b =>
    if b = 0 then (if a = 0 then nan else if 0 < a then posInf else negInf)
    else roundDouble (a / b)

/-- The value of `Math.round(x)`: the nearest integer, a tie going up. -/
def round : JsNum → JsNum
  | fin q => fin ((⌊q + 1 / 2⌋ : Int) : ℚ)
  | x => x

/-- The value of `Math.min(x, y)`. -/
def min : JsNum → JsNum → JsNum
  | nan, _ => nan
  | _, nan => nan
  | negInf, _ => negInf
  | _, negInf => negInf
  | posInf, y => y
  | x, posInf => x
  | fin a, fin b => fin (Min.min a b)

/-- Truthiness of a number: all but `NaN` and zero are truthy. -/
def truthy : JsNum → Bool
  | nan => false
  | fin q => decide (q ≠ 0)
  | _ => true

/-- The value of `x || y`. -/
def or (x y : JsNum) : JsNum := if x.truthy then x else y

/-- The comparison `x <= y`. -/
def le : JsNum → JsNum → Bool
  | nan, _ => false
  | _, nan => false
  | negInf, _ => true
  | _, posInf => true
  | posInf, _ => false
  | _, negInf => false
  | fin a, fin b => decide (a ≤ b)

/-- The comparison `x > y`. -/
def gt : JsNum → JsNum → Bool
  | nan, _ => false
  | _, nan => false
  | _, posInf => false
  | negInf, _ => false
  | posInf, _ => true
  | _, negInf => true
  | fin a, fin b => decide (b < a)

/-- The value of the unary `+x` on a number. -/
def pos (x : JsNum) : JsNum := x

end JsNum

/-! ## Entries and the aggregation functions -/

/-- One intake entry of the local cache, `{ id, ts, amount }`. -/
structure Entry where
  id : String
  ts : String
  amount : JsNum
  deriving DecidableEq

/-- The UTF-16 code units of a string, which are what a JavaScript string holds: one
unit for a character below U+10000, a surrogate pair for any other. -/
def utf16 (s : String) : List Nat :=
  s.data.flatMap (fun c =>
    if c.toNat < 0x10000 then [c.toNat]
    else [0xD800 + (c.toNat - 0x10000) / 0x400, 0xDC00 + (c.toNat - 0x10000) % 0x400])

/-- The test `ts.slice(0, 10) === dateStr`: the first ten code units of `ts` are the
code units of `dateStr`. -/
def sliceIsDate (ts dateStr : String) : Bool :=
  (utf16 ts).take 10 == utf16 dateStr

/-- The function `sumForDate(list, dateStr)` of `app.js`: the amounts of the matching
entries added from left to right, starting from 0.
A missing list (`null`, `undefined`) is `none`. -/
def sumForDate (list : Option (List Entry)) (dateStr : String) : JsNum :=
  ((list.getD []).filter (fun e => sliceIsDate e.ts dateStr)).foldl
    (fun s e => JsNum.add s e.amount) (JsNum.fin 0)

/-- The percent shown by `renderToday`:
`Math.min(100, Math.round((total / profile.goal) * 100) || 0)`. -/
def percentOfGoal (total goal : JsNum) : JsNum :=
  JsNum.min (JsNum.fin 100)
    (JsNum.or (JsNum.round (JsNum.mul (JsNum.div total goal) (JsNum.fin 100))) (JsNum.fin 0))

/-! ## Dates

The `Date` operations the weekly loop uses, after the ECMAScript definitions of the
same names. A time value is an `Int` of milliseconds since 1970-01-01T00:00:00Z;
the loop only meets time values within a week of the current time, far inside the
range of valid dates, so `TimeClip` is the identity and is left out. -/

/-- Milliseconds in a day. -/
def msPerDay : Int := 86400000

/-- The day number of a time value, `floor(t / msPerDay)`. -/
def Day (t : Int) : Int := t / msPerDay

/-- The milliseconds since the start of the day, `t modulo msPerDay`. -/
def TimeWithinDay (t : Int) : Int := t % msPerDay

/-- The (year, month 1..12, day of month 1..31) of a day number in the proleptic
Gregorian calendar. -/
def civilFromDays (z : Int) : Int × Int × Int :=
  let z1 := z + 719468
  let era := z1 / 146097
  let doe := z1 % 146097
  let yoe := (doe - doe / 1460 + doe / 36524 - doe / 146096) / 365
  let doy := doe - (365 * yoe + yoe / 4 - yoe / 100)
  let mp := (5 * doy + 2) / 153
  let d := doy - (153 * mp + 2) / 5 + 1
  let m := if mp < 10 then mp + 3 else mp - 9
  let y := yoe + era * 400
  (if m ≤ 2 then y + 1 else y, m, d)

/-- The day number of the given year, month (1..12) and day of month in the proleptic
Gregorian calendar. -/
def daysFromCivil (y m d : Int) : Int :=
  let y1 := if m ≤ 2 then y - 1 else y
  let era := y1 / 400
  let yoe := y1 % 400
  let mp := if m > 2 then m - 3 else m + 9
  let doy := (153 * mp + 2) / 5 + d - 1
  let doe := yoe * 365 + yoe / 4 - yoe / 100 + doy
  era * 146097 + doe - 719468

/-- The year of a time value. -/
def YearFromTime (t : Int) : Int := (civilFromDays (Day t)).1

/-- The month of a time value, 0 for January to 11 for December. -/
def MonthFromTime (t : Int) : Int := (civilFromDays (Day t)).2.1 - 1

/-- The day of the month of a time value, 1 to 31. -/
def DateFromTime (t : Int) : Int := (civilFromDays (Day t)).2.2

/-- The day number of day `date` of the month `month` (0-based, any integer) of
`year`; `date` may be zero, negative or past the end of the month. -/
def MakeDay (year month date : Int) : Int :=
  daysFromCivil (year + month / 12) (month % 12 + 1) 1 + date - 1

/-- The time value of a day number and a time within the day. -/
def MakeDate (day time : Int) : Int := day * msPerDay + time

/-- The host's time zone: the offset of local time from UTC in milliseconds, at a
UTC time value (`LocalTZA(t, true)`) and at a local time value (`LocalTZA(t, false)`). -/
structure TimeZone where
  offsetAtUTC : Int → Int
  offsetAtLocal : Int → Int

/-- The local time of a UTC time value. -/
def LocalTime (tz : TimeZone) (t : Int) : Int := t + tz.offsetAtUTC t

/-- The UTC time value of a local time. -/
def UTC (tz : TimeZone) (t : Int) : Int := t - tz.offsetAtLocal t

/-- The value of `d.getDate()`: the day of the month in local time. -/
def getDate (tz : TimeZone) (t : Int) : Int := DateFromTime (LocalTime tz t)

/-- The time value of `d` after `d.setDate(dt)`: day `dt` of the local month of `d`,
at the local time of day of `d`. -/
def setDate (tz : TimeZone) (t dt : Int) : Int :=
  let lt := LocalTime tz t
  UTC tz (MakeDate (MakeDay (YearFromTime lt) (MonthFromTime lt) dt) (TimeWithinDay lt))

/-- A decimal digit. -/
def digitChar (n : Nat) : Char :=
  match n % 10 with
  | 0 => '0' | 1 => '1' | 2 => '2' | 3 => '3' | 4 => '4'
  | 5 => '5' | 6 => '6' | 7 => '7' | 8 => '8' | _ => '9'

/-- The last `width` decimal digits of `n`, zero padded. -/
def padDigits : Nat → Nat → List Char
  | 0, _ => []
  | width + 1, n => padDigits width (n / 10) ++ [digitChar n]

/-- The year of an ISO string: four digits, or a sign and six digits outside 0..9999. -/
def isoYear (y : Int) : List Char :=
  if 0 ≤ y ∧ y ≤ 9999 then padDigits 4 y.toNat
  else (if y < 0 then '-' else '+') :: padDigits 6 y.natAbs

/-- The value of `d.toISOString()`: `YYYY-MM-DDTHH:mm:ss.sssZ` in UTC. -/
def toISOString (t : Int) : String :=
  let c := civilFromDays (Day t)
  let ms := (TimeWithinDay t).toNat
  String.mk (isoYear c.1 ++ '-' :: padDigits 2 c.2.1.toNat ++ '-' :: padDigits 2 c.2.2.toNat
    ++ 'T' :: padDigits 2 (ms / 3600000) ++ ':' :: padDigits 2 (ms / 60000 % 60)
    ++ ':' :: padDigits 2 (ms / 1000 % 60) ++ '.' :: padDigits 3 (ms % 1000) ++ ['Z'])

/-- The function `todayKey()` at the current time `now`. -/
def todayKey (now : Int) : String := (toISOString now).take 10

/-- One element of the `days` array of the weekly loop (the display label left out). -/
structure DayTotal where
  key : String
  total : JsNum
  deriving DecidableEq

/-- The body of the weekly loop for one `i`:
`d = new Date(now); d.setDate(now.getDate() - i); key = d.toISOString().slice(0, 10);`
and the pushed `{ key, total: sumForDate(entries, key) }`. -/
def weekDay (tz : TimeZone) (now : Int) (entries : List Entry) (i : Nat) : DayTotal :=
  let d := setDate tz now (getDate tz now - i)
  let key := (toISOString d).take 10
  { key := key, total := sumForDate (some entries) key }

/-- The iterations `i, i - 1, ..., 0` of the weekly loop, in the order they push. -/
def weekLoop (tz : TimeZone) (now : Int) (entries : List Entry) : Nat → List DayTotal
  | 0 => [weekDay tz now entries 0]
  | i + 1 => weekDay tz now entries (i + 1) :: weekLoop tz now entries i

/-- The `days` array built by `for (let i = 6; i >= 0; i--)` in `renderWeeklyChart`
(and, with the same keys and totals, in `renderHistory` and `exportWeeklyCsv`). -/
def weeklySeries (tz : TimeZone) (now : Int) (entries : List Entry) : List DayTotal :=
  weekLoop tz now entries 6

/-- A time zone with one daylight-saving period: offset `dst` from the UTC time
`start` up to `stop`, offset `std` otherwise. A local time that is skipped or
repeated at a transition takes the offset in force before the transition. -/
def dstZone (std dst start stop : Int) : TimeZone where
  offsetAtUTC := fun t => if start ≤ t ∧ t < stop then dst else std
  offsetAtLocal := fun t => if start + dst ≤ t ∧ t < stop + dst then dst else std

/-- Central European time in 2024: UTC+1, and UTC+2 from 2024-03-31T01:00:00Z to
2024-10-27T01:00:00Z. -/
def berlin2024 : TimeZone := dstZone 3600000 7200000 1711846800000 1729990800000

/-- A time zone with the same offset all year. -/
def fixedZone (offset : Int) : TimeZone where
  offsetAtUTC := fun _ => offset
  offsetAtLocal := fun _ => offset

/-! ## The remote store

`app.js` reaches the remote store through the `supabase` client of
`./lib/supabase.js`. The store is a value holding the rows of its tables; one call
of the client is a function of the store and of the outcome the environment gives
the call. -/

/-- A row of the remote table `water_logs`. -/
structure LogRow where
  id : String
  user_id : String
  amount_ml : JsNum
  logged_at : String
  deriving DecidableEq

/-- A row of the remote table `friendships`. -/
structure Friendship where
  id : String
  requester_id : String
  receiver_id : String
  status : String
  created_at : String
  deriving DecidableEq

/-- The remote store: the rows of `water_logs` and of `friendships`, in the order
the store keeps them. -/
structure Remote where
  water_logs : List LogRow
  friendships : List Friendship
  deriving DecidableEq

/-- A call made to the remote store. -/
inductive Call where
  | insertLog (user_id : String) (amount_ml : JsNum)
  | selectLogs (user_id : String)
  | selectFriendship (user_id other_id : String)
  | insertFriendship (requester_id receiver_id : String)
  | updateFriendship (id status : String)
  deriving DecidableEq

/-- What the environment supplies during one operation: the value of `uid()`, of
`new Date().toISOString()`, the id and the timestamp the store gives a row it
inserts, and for each kind of remote call the error it comes back with, if any. -/
structure Env where
  uid : String
  nowISO : String
  rowId : String
  rowTime : String
  insertError : Option String
  selectError : Option String
  updateError : Option String := none
  deriving DecidableEq

/-- The `{ data, error }` a call of the client resolves to. -/
structure Response (α : Type) where
  data : Option α
  error : Option String

/-- Modelled from the spec: the gateway operation `insertEntry` behind
`supabase.from('water_logs').insert([{ user_id, amount_ml }])`. A call that fails
leaves the store as it is; a call that succeeds adds one row for the identity, with
the amount sent and the id and timestamp the store assigns. -/
def Remote.insertLog (r : Remote) (env : Env) (user_id : String) (amount_ml : JsNum) :
    Response Unit × Remote :=
  match env.insertError with
  | some e => ({ data := none, error := some e }, r)
  | none =>
    ({ data := none, error := none },
     { r with water_logs := r.water_logs ++
        [{ id := env.rowId, user_id := user_id, amount_ml := amount_ml,
           logged_at := env.rowTime }] })

/-- Modelled from the spec: the rows the gateway operation `listEntries` lists, those of
`water_logs` of one identity, newest `logged_at` first (timestamps of one format
compare as strings). -/
def Remote.logsOf (r : Remote) (user_id : String) : List LogRow :=
  (r.water_logs.filter (fun row => row.user_id == user_id)).insertionSort
    (fun a b => ¬ (a.logged_at.data < b.logged_at.data))

/-- Modelled from the spec: the gateway operation `listEntries` behind
`supabase.from('water_logs').select('id, amount_ml, logged_at').eq('user_id', id)
.order('logged_at', { ascending: false })`: the rows of the identity, newest first,
or an error. -/
def Remote.selectLogs (r : Remote) (env : Env) (user_id : String) : Response (List LogRow) :=
  match env.selectError with
  | some e => { data := none, error := some e }
  | none => { data := some (r.logsOf user_id), error := none }

/-- Modelled from the spec: the rows the duplicate check asks for, those of
`friendships` between two identities in either direction, in the order the store
holds them. -/
def Remote.between (r : Remote) (a b : String) : List Friendship :=
  r.friendships.filter (fun row =>
    (row.requester_id == a && row.receiver_id == b) ||
    (row.requester_id == b && row.receiver_id == a))

/-- Modelled from the spec: the gateway operation `listFriendships(filter)` behind the
duplicate check `supabase.from('friendships').select(...).or(cond).limit(1)`, where
`cond` asks for the rows of the pair in either direction: at most one such row, the
first the store holds, or an error. -/
def Remote.selectFriendship (r : Remote) (env : Env) (a b : String) :
    Response (List Friendship) :=
  match env.selectError with
  | some e => { data := none, error := some e }
  | none => { data := some ((r.between a b).take 1), error := none }

/-- Modelled from the spec: the gateway operation `insertFriendship` behind
`supabase.from('friendships').insert([{ requester_id, receiver_id, status }])`. A call
that fails leaves the store as it is; a call that succeeds adds the row, with the id
and timestamp the store assigns. -/
def Remote.insertFriendship (r : Remote) (env : Env)
    (requester_id receiver_id status : String) : Response Unit × Remote :=
  match env.insertError with
  | some e => ({ data := none, error := some e }, r)
  | none =>
    ({ data := none, error := none },
     { r with friendships := r.friendships ++
        [{ id := env.rowId, requester_id := requester_id, receiver_id := receiver_id,
           status := status, created_at := env.rowTime }] })

/-- Modelled from the spec: the gateway operation `updateFriendshipStatus(id, status)`
behind `supabase.from('friendships').update({ status }).eq('id', id)`. A call that fails
leaves the store as it is; a call that succeeds gives the status to every row of that
id, whatever status the row had, and changes nothing else. -/
def Remote.updateFriendship (r : Remote) (env : Env) (id status : String) :
    Response Unit × Remote :=
  match env.updateError with
  | some e => ({ data := none, error := some e }, r)
  | none =>
    ({ data := none, error := none },
     { r with friendships := r.friendships.map (fun row =>
        if row.id = id then { row with status := status } else row) })

/-- A row of the pending list, the columns `id, requester_id, created_at`. -/
structure PendingRow where
  id : String
  requester_id : String
  created_at : String
  deriving DecidableEq

/-- A row of the accepted lists, the columns `id, requester_id, receiver_id`. -/
structure AcceptedRow where
  id : String
  requester_id : String
  receiver_id : String
  deriving DecidableEq

/-- Modelled from the spec: the rows `listFriendships` gives for
`.eq('receiver_id', me).eq('status', 'pending').order('created_at', { ascending: false })`:
the pending rows received by an identity, newest first. -/
def Remote.pendingFor (r : Remote) (me : String) : List PendingRow :=
  ((r.friendships.filter (fun row => row.receiver_id == me && row.status == "pending")).insertionSort
    (fun a b => ¬ (a.created_at.data < b.created_at.data))).map
    (fun row => { id := row.id, requester_id := row.requester_id, created_at := row.created_at })

/-- Modelled from the spec: the rows `listFriendships` gives for
`.eq('requester_id', me).eq('status', 'accepted')`. -/
def Remote.acceptedAsRequester (r : Remote) (me : String) : List AcceptedRow :=
  (r.friendships.filter (fun row => row.requester_id == me && row.status == "accepted")).map
    (fun row => { id := row.id, requester_id := row.requester_id, receiver_id := row.receiver_id })

/-- Modelled from the spec: the rows `listFriendships` gives for
`.eq('receiver_id', me).eq('status', 'accepted')`. -/
def Remote.acceptedAsReceiver (r : Remote) (me : String) : List AcceptedRow :=
  (r.friendships.filter (fun row => row.receiver_id == me && row.status == "accepted")).map
    (fun row => { id := row.id, requester_id := row.requester_id, receiver_id := row.receiver_id })

/-- Modelled from the spec: one listing call of the client on `friendships`: the rows
asked for, or an error. -/
def Remote.selectRows {α : Type} (env : Env) (rows : List α) : Response (List α) :=
  match env.selectError with
  | some e => { data := none, error := some e }
  | none => { data := some rows, error := none }

/-! ## The application state and its operations -/

/-- The state the operations act on: the module variables `entries` and
`currentUser` (its `id`, when signed in) of `app.js`, the remote store, and the calls
made to the store so far. `saveAll()` copies the variables to `localStorage` and
changes none of them; the copy is not part of the state. -/
structure World where
  entries : List Entry
  currentUser : Option String
  remote : Remote
  calls : List Call
  deriving DecidableEq

/-- How a call of a function ends: it returns, or an exception reaches the caller. -/
inductive Outcome (α : Type) where
  | returned (value : α)
  | threw (error : String)
  deriving DecidableEq

/-- The statement `try { body } catch (e) { handler }`. -/
def Outcome.catch {α : Type} (body : Outcome α) (handler : String → Outcome α) : Outcome α :=
  match body with
  | Outcome.returned value => Outcome.returned value
  | Outcome.threw error => handler error

/-- The mapping `r => ({ id: r.id, amount: r.amount_ml, ts: r.logged_at })`. -/
def rowToEntry (r : LogRow) : Entry :=
  { id := r.id, amount := r.amount_ml, ts := r.logged_at }

/-- The function `fetchEntriesFromSupabase()` of `app.js` (the spec's
`refreshFromRemote`). -/
def fetchEntriesFromSupabase (env : Env) (w : World) : Outcome World :=
  match w.currentUser with
  | none => Outcome.returned w
  | some user =>
    let resp := w.remote.selectLogs env user
    let w1 := { w with calls := w.calls ++ [Call.selectLogs user] }
    Outcome.catch
      (match resp.error with
       | some e => Outcome.threw e
       | none => Outcome.returned { w1 with entries := (resp.data.getD []).map rowToEntry })
      (fun _ => Outcome.returned w1)

/-- The alert of the self-reference error. -/
def selfReferenceError : String := "Cannot add yourself"

/-- The alert of the duplicate-pending error. -/
def duplicatePendingError : String :=
  "A friend request is already pending between you and this user."

/-- The alert of the already-friends error. -/
def alreadyFriendsError : String := "You are already friends with this user."

/-- The end of `sendFriendRequest`, from the insert on: the insert of the pending row,
then `alert('Friend request sent')`, or the alert of the `catch` when it fails. -/
def insertRequest (env : Env) (w : World) (me receiverId : String) : World × String :=
  let result := w.remote.insertFriendship env me receiverId "pending"
  let w1 := { w with remote := result.2,
                     calls := w.calls ++ [Call.insertFriendship me receiverId] }
  match (match result.1.error with
         | some e => Outcome.threw e
         | none => Outcome.returned "Friend request sent" : Outcome String) with
  | Outcome.returned text => (w1, text)
  | Outcome.threw e => (w1, if e = "" then "Could not send request" else e)

/-- The function `sendFriendRequest(receiverId)` of `app.js`: the state it leaves and
the text it alerts. -/
def sendFriendRequest (env : Env) (w : World) (receiverId : String) : World × String :=
  match w.currentUser with
  | none => (w, "Sign in to add friends")
  | some me =>
    if receiverId = me then (w, selfReferenceError)
    else
      let resp := w.remote.selectFriendship env me receiverId
      let w1 := { w with calls := w.calls ++ [Call.selectFriendship me receiverId] }
      match resp.data with
      | some (row :: _) =>
        if row.status = "pending" then (w1, duplicatePendingError)
        else if row.status = "accepted" then (w1, alreadyFriendsError)
        else insertRequest env w1 me receiverId
      | _ => insertRequest env w1 me receiverId

/-- The function `respondRequest(id, status)` of `app.js`. The two lists it reloads
afterwards are display only. -/
def respondRequest (env : Env) (w : World) (id status : String) : Outcome World :=
  let result := w.remote.updateFriendship env id status
  let w1 := { w with remote := result.2, calls := w.calls ++ [Call.updateFriendship id status] }
  Outcome.catch
    (match result.1.error with
     | some e => Outcome.threw e
     | none => Outcome.returned w1)
    (fun _ => Outcome.returned w1)

/-- The array `reqs` that `loadPendingRequests()` renders, one item with an Accept and a
Reject button for each row; `none` when nothing is rendered (nobody signed in, or the
listing failed and the `catch` ran). -/
def loadPendingRequests (env : Env) (w : World) : Option (List PendingRow) :=
  match w.currentUser with
  | none => none
  | some me =>
    let resp := Remote.selectRows env (w.remote.pendingFor me)
    match resp.error with
    | some _ => none
    | none => some (resp.data.getD [])

/-- The array `otherIds` of `loadAcceptedFriends()`: for each accepted row in which the
signed-in identity is requester, then for each in which it is receiver, the identity of
the other party, empty ids dropped by `.filter(Boolean)`; `none` when nobody is signed
in or a listing failed. -/
def loadAcceptedFriends (env : Env) (w : World) : Option (List String) :=
  match w.currentUser with
  | none => none
  | some me =>
    let resp1 := Remote.selectRows env (w.remote.acceptedAsRequester me)
    match resp1.error with
    | some _ => none
    | none =>
      let resp2 := Remote.selectRows env (w.remote.acceptedAsReceiver me)
      match resp2.error with
      | some _ => none
      | none =>
        let combined := resp1.data.getD [] ++ resp2.data.getD []
        some ((combined.map (fun r =>
          if r.requester_id = me then r.receiver_id else r.requester_id)).filter
            (fun id => id != ""))

/-- The click handler of a Delete button in `renderEntries`, for the entry of the given
id: `entries = entries.filter(x => x.id !== e.id)` (the spec's `removeEntry`). -/
def removeEntry (w : World) (id : String) : World :=
  { w with entries := w.entries.filter (fun x => x.id != id) }

/-- The value of `u.daily_goal_ml || 2000` (and of `userObj?.daily_goal_ml || 2000`); a
missing goal is `none`. -/
def goalOrDefault (daily_goal_ml : Option JsNum) : JsNum :=
  match daily_goal_ml with
  | some goal => goal.or (JsNum.fin 2000)
  | none => JsNum.fin 2000

/-- The percent of a friend in `loadAcceptedFriends`:
`Math.round((total / (u.daily_goal_ml || 2000)) * 100) || 0`. -/
def friendPercent (total : JsNum) (daily_goal_ml : Option JsNum) : JsNum :=
  JsNum.or
    (JsNum.round (JsNum.mul (JsNum.div total (goalOrDefault daily_goal_ml)) (JsNum.fin 100)))
    (JsNum.fin 0)

/-- The width in percent of the bar of a friend in `loadAcceptedFriends`:
`Math.min(100, pct)`. -/
def friendBarWidth (pct : JsNum) : JsNum := JsNum.min (JsNum.fin 100) pct

/-- The percent in the profile of a friend, `showFriendProfile`:
`Math.round((todayTotal / goal) * 100) || 0` with `goal = userObj?.daily_goal_ml || 2000`. -/
def friendProfilePercent (todayTotal : JsNum) (daily_goal_ml : Option JsNum) : JsNum :=
  let goal := goalOrDefault daily_goal_ml
  JsNum.or (JsNum.round (JsNum.mul (JsNum.div todayTotal goal) (JsNum.fin 100))) (JsNum.fin 0)

/-! ## The profile and `Number` of a string

`Number(text)` reads a string as a number after the ECMAScript grammar of numeric
strings: white space is trimmed, the empty string is 0, and the rest is `Infinity`, a
decimal literal with an optional sign, or a binary, octal or hexadecimal integer;
anything else is `NaN`. The literal is first read as digits and a power of ten, then
rounded to the nearest binary64 value: a literal too large is an infinity, one too
small is 0. -/

/-- A string read as a number, before it becomes a value: not a number, an infinity,
or `mantissa * 10 ^ exponent` with a sign. -/
inductive Numeral where
  | notNumber
  | infinity (negative : Bool)
  | decimal (negative : Bool) (mantissa : Nat) (exponent : Int)
  deriving DecidableEq

/-- The number a numeral stands for: the mathematical value of the literal, rounded to
binary64 (ECMAScript StringNumericValue). -/
def Numeral.toJsNum : Numeral → JsNum
  | Numeral.notNumber => JsNum.nan
  | Numeral.infinity false => JsNum.posInf
  | Numeral.infinity true => JsNum.negInf
  | Numeral.decimal negative mantissa exponent =>
    roundDouble ((if negative then -1 else 1) * (mantissa : ℚ) * (10 : ℚ) ^ exponent)

/-- The white space and line terminator characters that `Number` trims. -/
def isStrWhiteSpaceChar (c : Char) : Bool :=
  [0x9, 0xA, 0xB, 0xC, 0xD, 0x20, 0xA0, 0x1680, 0x2000, 0x2001, 0x2002, 0x2003, 0x2004,
   0x2005, 0x2006, 0x2007, 0x2008, 0x2009, 0x200A, 0x2028, 0x2029, 0x202F, 0x205F,
   0x3000, 0xFEFF].contains c.toNat

/-- A list of characters without its leading and trailing white space. -/
def trimWhiteSpace (cs : List Char) : List Char :=
  ((cs.dropWhile isStrWhiteSpaceChar).reverse.dropWhile isStrWhiteSpaceChar).reverse

/-- The value of a digit, hexadecimal digits included. -/
def digitValue (c : Char) : Option Nat :=
  if '0' ≤ c ∧ c ≤ '9' then some (c.toNat - 48)
  else if 'a' ≤ c ∧ c ≤ 'f' then some (c.toNat - 87)
  else if 'A' ≤ c ∧ c ≤ 'F' then some (c.toNat - 55)
  else none

/-- The value of a list of digits of the given base, most significant first; `none`
when the list is empty or holds another character. -/
def digitsIn (base : Nat) (cs : List Char) : Option Nat :=
  if cs = [] then none
  else cs.foldl (fun acc c =>
    match acc, digitValue c with
    | some n, some d => if d < base then some (n * base + d) else none
    | _, _ => none) (some 0)

/-- The leading decimal digits of a list of characters, and the rest. -/
def splitDigits (cs : List Char) : List Char × List Char :=
  cs.span (fun c => decide ('0' ≤ c ∧ c ≤ '9'))

/-- The value of a possibly empty list of decimal digits. -/
def decimalValue (ds : List Char) : Nat :=
  ds.foldl (fun n c => n * 10 + (c.toNat - 48)) 0

/-- The exponent part that ends a decimal literal, `e` or `E` and a signed integer, or
nothing; `none` when the characters are anything else. -/
def parseExponent (cs : List Char) : Option Int :=
  match cs with
  | [] => some 0
  | c :: rest =>
    if c = 'e' ∨ c = 'E' then
      match rest with
      | '+' :: ds => (digitsIn 10 ds).map (fun n => (n : Int))
      | '-' :: ds => (digitsIn 10 ds).map (fun n => - (n : Int))
      | ds => (digitsIn 10 ds).map (fun n => (n : Int))
    else none

/-- An unsigned decimal literal, `digits . digits? exponent?`, `. digits exponent?` or
`digits exponent?`, as a mantissa and a power of ten. -/
def parseUnsignedDecimal (cs : List Char) : Option (Nat × Int) :=
  let whole := splitDigits cs
  match whole.2 with
  | '.' :: rest =>
    let fraction := splitDigits rest
    if whole.1 = [] ∧ fraction.1 = [] then none
    else (parseExponent fraction.2).map (fun e =>
      (decimalValue (whole.1 ++ fraction.1), e - (fraction.1.length : Int)))
  | rest =>
    if whole.1 = [] then none
    else (parseExponent rest).map (fun e => (decimalValue whole.1, e))

/-- A decimal literal after its sign: `Infinity` or an unsigned decimal literal. -/
def parseSigned (negative : Bool) (cs : List Char) : Numeral :=
  if cs = ['I', 'n', 'f', 'i', 'n', 'i', 't', 'y'] then Numeral.infinity negative
  else
    match parseUnsignedDecimal cs with
    | some (mantissa, exponent) => Numeral.decimal negative mantissa exponent
    | none => Numeral.notNumber

/-- An integer literal of the given base after its prefix. -/
def parseInBase (base : Nat) (ds : List Char) : Numeral :=
  match digitsIn base ds with
  | some n => Numeral.decimal false n 0
  | none => Numeral.notNumber

/-- The numeral a string is read as by `Number`. -/
def parseNumeral (text : String) : Numeral :=
  match trimWhiteSpace text.data with
  | [] => Numeral.decimal false 0 0
  | '0' :: 'x' :: ds => parseInBase 16 ds
  | '0' :: 'X' :: ds => parseInBase 16 ds
  | '0' :: 'o' :: ds => parseInBase 8 ds
  | '0' :: 'O' :: ds => parseInBase 8 ds
  | '0' :: 'b' :: ds => parseInBase 2 ds
  | '0' :: 'B' :: ds => parseInBase 2 ds
  | '+' :: cs => parseSigned false cs
  | '-' :: cs => parseSigned true cs
  | cs => parseSigned false cs

/-- The value of `Number(text)` for a string. -/
def jsNumber (text : String) : JsNum := (parseNumeral text).toJsNum

/-! ## Adding an entry

`addEntry(amount)` is called with the number of a preset or of the custom field. The
presets come from the local cache and from imported files, which `importDataFile`
merges as they are, so the argument is any primitive value of a JSON file. -/

/-- A primitive value of JavaScript. -/
inductive JsValue where
  | undefined
  | null
  | bool (b : Bool)
  | num (x : JsNum)
  | str (text : String)
  deriving DecidableEq

/-- Truthiness of a value: `undefined`, `null`, `false`, `NaN`, zero and the empty
string are falsy. -/
def JsValue.truthy : JsValue → Bool
  | JsValue.undefined => false
  | JsValue.null => false
  | JsValue.bool b => b
  | JsValue.num x => x.truthy
  | JsValue.str text => text != ""

/-- The number a value stands for (ECMAScript ToNumber), the value of `+amount` and
the operand of `amount <= 0`. -/
def JsValue.toNumber : JsValue → JsNum
  | JsValue.undefined => JsNum.nan
  | JsValue.null => JsNum.fin 0
  | JsValue.bool true => JsNum.fin 1
  | JsValue.bool false => JsNum.fin 0
  | JsValue.num x => x
  | JsValue.str text => jsNumber text

/-- The inner function `localInsert()` of `addEntry`. -/
def localInsert (env : Env) (w : World) (amount : JsValue) : World :=
  { w with
    entries := w.entries ++ [{ id := env.uid, ts := env.nowISO, amount := amount.toNumber }] }

/-- The function `addEntry(amount)` of `app.js`, run to the end of its callbacks. The
column `amount_ml` of the store is numeric: the store is handed the number the value
stands for. -/
def addEntry (env : Env) (w : World) (amount : JsValue) : Outcome World :=
  if !amount.truthy || amount.toNumber.le (JsNum.fin 0) then Outcome.returned w
  else
    match w.currentUser with
    | some user =>
      let result := w.remote.insertLog env user amount.toNumber
      let w1 := { w with remote := result.2,
                         calls := w.calls ++ [Call.insertLog user amount.toNumber] }
      match result.1.error with
      | some _ => Outcome.returned (localInsert env w1 amount)
      | none => fetchEntriesFromSupabase env w1
    | none => Outcome.returned (localInsert env w amount)

/-- The module variable `profile`, `{ id, name, goal }`. -/
structure Profile where
  id : String
  name : String
  goal : JsNum
  deriving DecidableEq

/-- The click handler of `saveProfile`, given the values of the two fields:
`newName = displayName.value || profile.name`,
`newGoal = Number(dailyGoal.value) || profile.goal`, and both stored in `profile`.
The copy it then sends to the remote store leaves `profile` as it is. -/
def saveProfile (profile : Profile) (displayName dailyGoal : String) : Profile :=
  let newName := if displayName = "" then profile.name else displayName
  let newGoal := (jsNumber dailyGoal).or profile.goal
  { profile with name := newName, goal := newGoal }

/-! ## Sequences of friendship operations -/

/-- The two outcomes the pending list offers, the buttons Accept and Reject. -/
inductive Answer where
  | accepted
  | rejected
  deriving DecidableEq

/-- The status `respondRequest` is called with for an outcome. -/
def Answer.status : Answer → String
  | Answer.accepted => "accepted"
  | Answer.rejected => "rejected"

/-- One operation of the friendship component: `sendRequest(me, other)`, the identity
`me` signed in, or `respond(id, outcome)`, each with what the environment supplies. -/
inductive FriendOp where
  | send (env : Env) (me other : String)
  | respond (env : Env) (id : String) (answer : Answer)

/-- The state after one operation. -/
def FriendOp.run (w : World) : FriendOp → World
  | FriendOp.send env me other =>
    (sendFriendRequest env { w with currentUser := some me } other).1
  | FriendOp.respond env id answer =>
    match respondRequest env w id answer.status with
    | Outcome.returned w1 => w1
    | Outcome.threw _ => w

/-- The state after a sequence of operations, one after the other. -/
def runOps (w : World) (ops : List FriendOp) : World := ops.foldl FriendOp.run w

/-- The duplicate check of the operation, if it makes one, is delivered. -/
def FriendOp.checkSucceeds : FriendOp → Prop
  | FriendOp.send env _ _ => env.selectError = none
  | FriendOp.respond _ _ _ => True

/-- The rows between two identities, in either direction, that are not rejected. -/
def Remote.nonRejectedBetween (r : Remote) (a b : String) : List Friendship :=
  (r.between a b).filter (fun row => row.status != "rejected")

/-- At most one non-rejected row per unordered pair of identities. -/
def AtMostOneNonRejected (r : Remote) : Prop :=
  ∀ a b : String, (r.nonRejectedBetween a b).length ≤ 1

/-- Every row has a requester other than its receiver. -/
def NoSelfRequest (r : Remote) : Prop :=
  ∀ row ∈ r.friendships, row.requester_id ≠ row.receiver_id

/-- The operation keeps to the lifecycle in the state it is run in. A request: its
duplicate check is delivered, and when the pair holds a row that is not rejected, the
row the check returns is not rejected. An acceptance: no row of that id is rejected.
A rejection: always. -/
def FriendOp.inLifecycle (w : World) : FriendOp → Bool
  | FriendOp.send env me other =>
    env.selectError.isNone &&
      ((w.remote.nonRejectedBetween me other).isEmpty ||
        match (w.remote.between me other).head? with
        | some first => first.status != "rejected"
        | none => false)
  | FriendOp.respond _ id Answer.accepted =>
    w.remote.friendships.all (fun row => row.id != id || row.status != "rejected")
  | FriendOp.respond _ _ Answer.rejected => true

/-- Every operation of the sequence keeps to the lifecycle in the state it is run in,
the state the operations before it leave. -/
def allInLifecycle (w : World) : List FriendOp → Bool
  | [] => true
  | op :: rest => op.inLifecycle w && allInLifecycle (op.run w) rest

/-! ## Reference definitions, in the words of the specification -/

/-- The finite value of a number, zero for `NaN` and the infinities. -/
def JsNum.toRat : JsNum → ℚ
  | JsNum.fin q => q
  | _ => 0

/-- The value `round(total / goal * 100)` as JavaScript computes it: the quotient and
the product rounded to binary64, then `Math.round`. -/
def roundedPercentJs (total goal : JsNum) : JsNum :=
  JsNum.round (JsNum.mul (JsNum.div total goal) (JsNum.fin 100))

/-- A number clamped to the interval [0, 100]. -/
def clampPercent : JsNum → JsNum
  | JsNum.nan => JsNum.nan
  | JsNum.posInf => JsNum.fin 100
  | JsNum.negInf => JsNum.fin 0
  | JsNum.fin q => JsNum.fin (max 0 (min 100 q))

/-- The number is a positive integer. -/
def IsPositiveInteger (x : JsNum) : Prop :=
  ∃ n : Nat, 0 < n ∧ x = JsNum.fin (n : ℚ)

/-! ## Example values -/

/-- An environment in which every remote call succeeds. -/
def envOnline : Env :=
  { uid := "local-1", nowISO := "2024-05-02T12:00:00.000Z", rowId := "row-9",
    rowTime := "2024-05-02T12:00:00+00:00", insertError := none, selectError := none }

/-- An environment in which every remote call fails. -/
def envOffline : Env :=
  { envOnline with insertError := some "Failed to fetch", selectError := some "Failed to fetch" }

/-- An environment in which inserts succeed and listings fail. -/
def envInsertOnly : Env :=
  { envOnline with selectError := some "Failed to fetch" }

/-- An environment in which listings fail and inserts succeed under the id `row-10`. -/
def envCheckFails : Env :=
  { envOnline with rowId := "row-10", selectError := some "Failed to fetch" }

/-- A remote store with one log row of `alice` and one of `bob`. -/
def remoteLogs : Remote :=
  { water_logs :=
      [{ id := "row-1", user_id := "alice", amount_ml := JsNum.fin 250,
         logged_at := "2024-05-02T08:00:00+00:00" },
       { id := "row-2", user_id := "bob", amount_ml := JsNum.fin 500,
         logged_at := "2024-05-02T09:00:00+00:00" }],
    friendships := [] }

/-- A signed-out state with one local entry. -/
def worldSignedOut : World :=
  { entries := [{ id := "local-0", ts := "2024-05-02T07:00:00.000Z", amount := JsNum.fin 200 }],
    currentUser := none, remote := remoteLogs, calls := [] }

/-- The state of `alice`, signed in, with one local entry. -/
def worldAlice : World := { worldSignedOut with currentUser := some "alice" }

/-- The pending request of `alice` to `bob`. -/
def requestAliceBob : Friendship :=
  { id := "f-1", requester_id := "alice", receiver_id := "bob", status := "pending",
    created_at := "2024-05-01T10:00:00+00:00" }

/-- The state of `alice`, signed in, her request to `bob` pending in the store. -/
def worldPending : World :=
  { entries := [], currentUser := some "alice",
    remote := { water_logs := [], friendships := [requestAliceBob] }, calls := [] }

/-- The state of `alice`, signed in, the store holding a rejected request of hers to
`bob` followed by a pending one. -/
def worldRejectedPending : World :=
  { entries := [], currentUser := some "alice",
    remote := { water_logs := [],
                friendships := [{ requestAliceBob with status := "rejected" },
                                { requestAliceBob with id := "f-2" }] },
    calls := [] }

/-- A profile with the default goal of 2000 ml. -/
def profileYou : Profile := { id := "alice", name := "You", goal := JsNum.fin 2000 }

/-- The state of `alice`, signed in, her request to `bob` accepted in the store. -/
def worldAccepted : World :=
  { worldPending with
    remote := { water_logs := [],
                friendships := [{ requestAliceBob with status := "accepted" }] } }

/-- The state of `alice`, signed in, her request to `bob` rejected in the store. -/
def worldRejected : World :=
  { worldPending with
    remote := { water_logs := [],
                friendships := [{ requestAliceBob with status := "rejected" }] } }

/-- A signed-out state with nothing stored, locally or remotely. -/
def worldEmpty : World :=
  { entries := [], currentUser := none,
    remote := { water_logs := [], friendships := [] }, calls := [] }

/-- An environment in which every remote call succeeds and the store gives an inserted
row the id `id`. -/
def envRow (id : String) : Env := { envOnline with rowId := id }

/-- The operations: `alice` asks `bob`, `bob` rejects, `alice` asks again, `alice` asks
a third time. -/
def opsAskedThrice : List FriendOp :=
  [FriendOp.send (envRow "f-1") "alice" "bob",
   FriendOp.respond envOnline "f-1" Answer.rejected,
   FriendOp.send (envRow "f-2") "alice" "bob",
   FriendOp.send (envRow "f-3") "alice" "bob"]

/-- The operations: `alice` asks `bob`, `bob` rejects, `alice` asks again, then the
first request is accepted. -/
def opsAcceptedLate : List FriendOp :=
  [FriendOp.send (envRow "f-1") "alice" "bob",
   FriendOp.respond envOnline "f-1" Answer.rejected,
   FriendOp.send (envRow "f-2") "alice" "bob",
   FriendOp.respond envOnline "f-1" Answer.accepted]

/-- The operations: `alice` asks `bob`, `bob` rejects, `alice` asks again, `bob`
accepts the second request, `alice` asks `carol`, `carol` rejects. -/
def opsAskedAgain : List FriendOp :=
  [FriendOp.send (envRow "f-1") "alice" "bob",
   FriendOp.respond envOnline "f-1" Answer.rejected,
   FriendOp.send (envRow "f-2") "alice" "bob",
   FriendOp.respond envOnline "f-2" Answer.accepted,
   FriendOp.send (envRow "f-3") "alice" "carol",
   FriendOp.respond envOnline "f-3" Answer.rejected]

/-! ## Properties -/

theorem roundHalfEven_int (n : Int) : roundHalfEven (n : ℚ) = n := by
  simp [roundHalfEven]

theorem roundHalfEven_nonneg (x : ℚ) (hx : 0 ≤ x) : 0 ≤ roundHalfEven x := by
  have hf : 0 ≤ ⌊x⌋ := Int.floor_nonneg.mpr hx
  unfold roundHalfEven
  split_ifs <;> omega

theorem ulp_pos (q : ℚ) : 0 < ulp q := by
  unfold ulp
  positivity

theorem binade_lt (q : ℚ) (k : Int) (hq : q ≠ 0) (h : |q| < (2 : ℚ) ^ k) : binade q < k := by
  have hpos : 0 < |q| := abs_pos.mpr hq
  have h1 : ((2 : ℕ) : ℚ) ^ (binade q) ≤ |q| := Int.zpow_log_le_self (by norm_num) hpos
  have h2 : (2 : ℚ) ^ (binade q) < (2 : ℚ) ^ k := by
    have : ((2 : ℕ) : ℚ) = (2 : ℚ) := by norm_num
    rw [this] at h1
    exact lt_of_le_of_lt h1 h
  exact (zpow_lt_zpow_iff_right₀ (by norm_num : (1 : ℚ) < 2)).mp h2


theorem roundDouble_of_quotient (q : ℚ) (N : Int) (h : q / ulp q = (N : ℚ))
    (hbig : |q| < (2 : ℚ) ^ (1024 : Int)) : roundDouble q = JsNum.fin q := by
  have hu : ulp q ≠ 0 := ne_of_gt (ulp_pos q)
  have hq : ((roundHalfEven (q / ulp q) : Int) : ℚ) * ulp q = q := by
    rw [h, roundHalfEven_int, ← h]
    field_simp
  unfold roundDouble
  rw [hq, if_neg (not_le.mpr hbig)]

theorem roundDouble_dyadic (m k : Int) (hm : |m| < 2 ^ 53) (hk : -1074 ≤ k)
    (hbig : |(m : ℚ) * (2 : ℚ) ^ k| < (2 : ℚ) ^ (1024 : Int)) :
    roundDouble ((m : ℚ) * (2 : ℚ) ^ k) = JsNum.fin ((m : ℚ) * (2 : ℚ) ^ k) := by
  by_cases hm0 : m = 0
  · subst hm0
    apply roundDouble_of_quotient _ 0 _ hbig
    simp
  · have h2 : (0 : ℚ) < (2 : ℚ) ^ k := by positivity
    have hq0 : (m : ℚ) * (2 : ℚ) ^ k ≠ 0 := by
      have : (m : ℚ) ≠ 0 := by exact_mod_cast hm0
      positivity
    have hmq : |(m : ℚ)| < (2 : ℚ) ^ (53 : Int) := by
      have : ((|m| : Int) : ℚ) < ((2 ^ 53 : Int) : ℚ) := by exact_mod_cast hm
      rw [Int.cast_abs] at this
      norm_num at this ⊢
      exact this
    have habs : |(m : ℚ) * (2 : ℚ) ^ k| < (2 : ℚ) ^ (53 + k) := by
      rw [abs_mul, abs_of_pos h2, zpow_add₀ (by norm_num : (2 : ℚ) ≠ 0)]
      exact mul_lt_mul_of_pos_right hmq h2
    have hb := binade_lt _ (53 + k) hq0 habs
    have hj : max (binade ((m : ℚ) * (2 : ℚ) ^ k)) (-1022) - 52 ≤ k := by omega
    obtain ⟨t, ht⟩ := Int.eq_ofNat_of_zero_le (sub_nonneg.mpr hj)
    apply roundDouble_of_quotient _ (m * 2 ^ t) _ hbig
    unfold ulp
    have hk2 : k = (max (binade ((m : ℚ) * (2 : ℚ) ^ k)) (-1022) - 52) + (t : Int) := by omega
    generalize max (binade ((m : ℚ) * (2 : ℚ) ^ k)) (-1022) - 52 = j at hk2
    rw [mul_div_assoc, ← zpow_sub₀ (by norm_num : (2 : ℚ) ≠ 0), hk2]
    push_cast
    congr 1
    rw [add_sub_cancel_left, zpow_natCast]

theorem roundDouble_int (n : Int) (h : |n| ≤ 2 ^ 53) :
    roundDouble (n : ℚ) = JsNum.fin (n : ℚ) := by
  by_cases hlt : |n| < 2 ^ 53
  · have hq : |(n : ℚ)| < (2 : ℚ) ^ (53 : Int) := by
      have : ((|n| : Int) : ℚ) < ((2 ^ 53 : Int) : ℚ) := by exact_mod_cast hlt
      rw [Int.cast_abs] at this
      norm_num at this ⊢
      exact this
    have h := roundDouble_dyadic n 0 hlt (by norm_num) (by
      simp only [zpow_zero, mul_one]
      exact lt_trans hq (by norm_num))
    simpa using h
  · have hn : |n| = 2 ^ 53 := le_antisymm h (not_lt.mp hlt)
    rcases abs_eq (by norm_num : (0 : Int) ≤ 2 ^ 53) |>.mp hn with h1 | h1
    · have h := roundDouble_dyadic 1 53 (by norm_num) (by norm_num) (by norm_num)
      rw [h1]
      norm_num at h ⊢
      exact h
    · have h := roundDouble_dyadic (-1) 53 (by norm_num) (by norm_num) (by norm_num)
      rw [h1]
      norm_num at h ⊢
      exact h

theorem roundHalfEven_ge (x : ℚ) (n : Int) (h : (n : ℚ) ≤ x) : n ≤ roundHalfEven x := by
  have hf : n ≤ ⌊x⌋ := Int.le_floor.mpr h
  unfold roundHalfEven
  split_ifs <;> omega

/-- A value of 2 ^ 1024 or more rounds to `Infinity`. -/
theorem roundDouble_overflow (q : ℚ) (h : (2 : ℚ) ^ (1024 : Int) ≤ q) :
    roundDouble q = JsNum.posInf := by
  have hq : 0 < q := lt_of_lt_of_le (by positivity) h
  have habs : |q| = q := abs_of_pos hq
  have hlog : ((2 : ℕ) : ℚ) ^ (binade q) ≤ |q| :=
    Int.zpow_log_le_self (by norm_num) (abs_pos.mpr (ne_of_gt hq))
  have h2 : ((2 : ℕ) : ℚ) = (2 : ℚ) := by norm_num
  rw [h2, habs] at hlog
  have hb : (1024 : Int) ≤ binade q := by
    by_contra hlt
    have hlt2 : binade q + 1 ≤ 1024 := by omega
    have hup : |q| < ((2 : ℕ) : ℚ) ^ (binade q + 1) :=
      Int.lt_zpow_succ_log_self (by norm_num) |q|
    rw [h2, habs] at hup
    have hmono : (2 : ℚ) ^ (binade q + 1) ≤ (2 : ℚ) ^ (1024 : Int) :=
      (zpow_le_zpow_iff_right₀ (by norm_num : (1 : ℚ) < 2)).mpr hlt2
    linarith
  have hmax : max (binade q) (-1022) = binade q := max_eq_left (by omega)
  have hu : ulp q = (2 : ℚ) ^ (binade q - 52) := by
    unfold ulp
    rw [hmax]
  have hupos : 0 < ulp q := ulp_pos q
  have hquot : (((2 : Int) ^ 52 : Int) : ℚ) ≤ q / ulp q := by
    rw [le_div_iff₀ hupos, hu]
    have : (((2 : Int) ^ 52 : Int) : ℚ) * (2 : ℚ) ^ (binade q - 52) = (2 : ℚ) ^ (binade q) := by
      rw [zpow_sub₀ (by norm_num : (2 : ℚ) ≠ 0)]
      push_cast
      field_simp
      norm_num
      ring
    rw [this]
    exact hlog
  have hr : ((2 : Int) ^ 52 : Int) ≤ roundHalfEven (q / ulp q) := roundHalfEven_ge _ _ hquot
  have hrq : (((2 : Int) ^ 52 : Int) : ℚ) ≤ ((roundHalfEven (q / ulp q) : Int) : ℚ) := by
    exact_mod_cast hr
  have hprod : (2 : ℚ) ^ (1024 : Int) ≤ ((roundHalfEven (q / ulp q) : Int) : ℚ) * ulp q := by
    have h3 : (((2 : Int) ^ 52 : Int) : ℚ) * ulp q = (2 : ℚ) ^ (binade q) := by
      rw [hu, zpow_sub₀ (by norm_num : (2 : ℚ) ≠ 0)]
      push_cast
      field_simp
      norm_num
      ring
    have h4 : (2 : ℚ) ^ (1024 : Int) ≤ (2 : ℚ) ^ (binade q) :=
      (zpow_le_zpow_iff_right₀ (by norm_num : (1 : ℚ) < 2)).mpr hb
    have h5 := mul_le_mul_of_nonneg_right hrq (le_of_lt hupos)
    rw [h3] at h5
    exact le_trans h4 h5
  have hpos : 0 ≤ ((roundHalfEven (q / ulp q) : Int) : ℚ) * ulp q :=
    le_trans (by positivity) hprod
  unfold roundDouble
  rw [abs_of_nonneg hpos, if_pos hprod, if_pos hq]

/-- A positive value below 2 ^ (-1075), half the least subnormal, rounds to 0. -/
theorem roundDouble_underflow (q : ℚ) (hq : 0 < q) (h : q < (2 : ℚ) ^ (-1075 : Int)) :
    roundDouble q = JsNum.fin 0 := by
  have habs : |q| = q := abs_of_pos hq
  have hlt : |q| < (2 : ℚ) ^ (-1075 : Int) := by rw [habs]; exact h
  have hb := binade_lt q (-1075) (ne_of_gt hq) hlt
  have hmax : max (binade q) (-1022) = -1022 := max_eq_right (by omega)
  have hu : ulp q = (2 : ℚ) ^ (-1074 : Int) := by
    unfold ulp
    rw [hmax]
    norm_num
  have hupos : 0 < ulp q := ulp_pos q
  have hquot : q / ulp q < 1 / 2 := by
    rw [div_lt_iff₀ hupos, hu]
    have : (1 / 2 : ℚ) * (2 : ℚ) ^ (-1074 : Int) = (2 : ℚ) ^ (-1075 : Int) := by
      rw [show (-1075 : Int) = -1074 - 1 by norm_num, zpow_sub₀ (by norm_num : (2 : ℚ) ≠ 0)]
      field_simp
      ring
    rw [this]
    exact h
  have hnn : 0 ≤ q / ulp q := le_of_lt (div_pos hq hupos)
  have hfloor : ⌊q / ulp q⌋ = 0 := by
    rw [Int.floor_eq_iff]
    constructor
    · simpa using hnn
    · norm_num
      linarith
  have hr : roundHalfEven (q / ulp q) = 0 := by
    unfold roundHalfEven
    rw [hfloor]
    simp only [Int.cast_zero, sub_zero]
    rw [if_pos hquot]
  unfold roundDouble
  rw [hr]
  have hsmall : ¬ ((2 : ℚ) ^ (1024 : Int) ≤ |(((0 : Int) : ℚ)) * ulp q|) := by
    simp only [Int.cast_zero, zero_mul, abs_zero, not_le]
    positivity
  rw [if_neg hsmall]
  simp

theorem roundDouble_nonneg (q : ℚ) (hq : 0 ≤ q) :
    roundDouble q = JsNum.posInf ∨ ∃ r : ℚ, 0 ≤ r ∧ roundDouble q = JsNum.fin r := by
  have hu := ulp_pos q
  have hn : (0 : ℚ) ≤ ((roundHalfEven (q / ulp q) : Int) : ℚ) := by
    exact_mod_cast roundHalfEven_nonneg _ (div_nonneg hq (le_of_lt hu))
  unfold roundDouble
  split_ifs with h1 h2
  · exact Or.inl rfl
  · exfalso
    have hq0 : q = 0 := le_antisymm (not_lt.mp h2) hq
    rw [hq0] at h1
    have hz : roundHalfEven (0 : ℚ) = 0 := by
      have := roundHalfEven_int 0
      simpa using this
    rw [zero_div, hz] at h1
    simp only [Int.cast_zero, zero_mul, abs_zero] at h1
    have : (0 : ℚ) < (2 : ℚ) ^ (1024 : Int) := by positivity
    linarith
  · exact Or.inr ⟨_, mul_nonneg hn (le_of_lt hu), rfl⟩


/-- The loop of `reduce` over entries whose amounts are integers, from an integer
accumulator: while the absolute values add up to at most `2 ^ 53`, every partial sum
is exact. -/
theorem foldl_safe_integers (list : List Entry) (acc : Int)
    (hint : ∀ e ∈ list, ∃ n : Int, e.amount = JsNum.fin (n : ℚ))
    (hsafe : |(acc : ℚ)| + (list.map (fun e => |e.amount.toRat|)).sum ≤ 2 ^ 53) :
    list.foldl (fun s e => JsNum.add s e.amount) (JsNum.fin (acc : ℚ))
      = JsNum.fin ((acc : ℚ) + (list.map (fun e => e.amount.toRat)).sum) := by
  induction list generalizing acc with
  | nil => simp
  | cons e rest ih =>
    obtain ⟨n, hn⟩ := hint e (List.mem_cons_self _ _)
    have he : e.amount.toRat = (n : ℚ) := by rw [hn]; rfl
    simp only [List.map_cons, List.sum_cons, he] at hsafe
    have hrest : 0 ≤ (rest.map (fun e => |e.amount.toRat|)).sum := by
      apply List.sum_nonneg
      intro x hx
      rw [List.mem_map] at hx
      obtain ⟨y, _, hy⟩ := hx
      rw [← hy]
      exact abs_nonneg _
    have hsum : |((acc + n : Int) : ℚ)| ≤ |(acc : ℚ)| + |(n : ℚ)| := by
      push_cast
      exact abs_add _ _
    have hstep : JsNum.add (JsNum.fin (acc : ℚ)) (JsNum.fin (n : ℚ))
        = JsNum.fin ((acc + n : Int) : ℚ) := by
      have hle : |acc + n| ≤ 2 ^ 53 := by
        have : ((|acc + n| : Int) : ℚ) ≤ ((2 ^ 53 : Int) : ℚ) := by
          rw [Int.cast_abs]
          push_cast at hsum ⊢
          linarith
        exact_mod_cast this
      have := roundDouble_int (acc + n) hle
      simpa [JsNum.add] using this
    simp only [List.foldl_cons, List.map_cons, List.sum_cons, he]
    rw [hn, hstep,
      ih (acc + n) (fun x hx => hint x (List.mem_cons_of_mem _ hx)) (by linarith)]
    push_cast
    rw [add_assoc]

/-- C1. `sumForDate(list, dateKey)` adds the amounts of exactly the entries whose
timestamp starts with `dateKey` (its first ten code units), from left to right. When
the matching amounts are integers whose absolute values add up to at most `2 ^ 53`,
the range in which binary64 addition is exact, it is their sum; an entry of another
date can be dropped without changing it; it is 0 when no entry matches, for the empty
list and for a missing list; and entries of 200 and 300 today and 150 yesterday give
500 for today. -/
theorem sumForDate_spec :
    (∀ (list : List Entry) (dateKey : String),
        (∀ e ∈ list, sliceIsDate e.ts dateKey = true → ∃ n : Int, e.amount = JsNum.fin (n : ℚ)) →
        ((list.filter (fun e => sliceIsDate e.ts dateKey)).map
            (fun e => |e.amount.toRat|)).sum ≤ 2 ^ 53 →
        sumForDate (some list) dateKey
          = JsNum.fin (((list.filter (fun e => sliceIsDate e.ts dateKey)).map
              (fun e => e.amount.toRat)).sum))
    ∧ (∀ (before after : List Entry) (e : Entry) (dateKey : String),
        sliceIsDate e.ts dateKey = false →
        sumForDate (some (before ++ e :: after)) dateKey
          = sumForDate (some (before ++ after)) dateKey)
    ∧ (∀ (list : List Entry) (dateKey : String),
        (∀ e ∈ list, sliceIsDate e.ts dateKey = false) →
        sumForDate (some list) dateKey = JsNum.fin 0)
    ∧ (∀ dateKey : String, sumForDate (some []) dateKey = JsNum.fin 0)
    ∧ (∀ dateKey : String, sumForDate none dateKey = JsNum.fin 0)
    ∧ sumForDate
        (some [{ id := "a", ts := "2024-05-02T08:00:00.000Z", amount := JsNum.fin 200 },
               { id := "b", ts := "2024-05-02T12:00:00.000Z", amount := JsNum.fin 300 },
               { id := "c", ts := "2024-05-01T21:15:00.000Z", amount := JsNum.fin 150 }])
        "2024-05-02" = JsNum.fin 500 := by
  have hmain : ∀ (list : List Entry) (dateKey : String),
      (∀ e ∈ list, sliceIsDate e.ts dateKey = true → ∃ n : Int, e.amount = JsNum.fin (n : ℚ)) →
      ((list.filter (fun e => sliceIsDate e.ts dateKey)).map
          (fun e => |e.amount.toRat|)).sum ≤ 2 ^ 53 →
      sumForDate (some list) dateKey
        = JsNum.fin (((list.filter (fun e => sliceIsDate e.ts dateKey)).map
            (fun e => e.amount.toRat)).sum) := by
    intro list dateKey hint hsafe
    have h := foldl_safe_integers (list.filter (fun e => sliceIsDate e.ts dateKey)) 0
      (fun e he => hint e (List.mem_filter.mp he).1 (List.mem_filter.mp he).2)
      (by simpa using hsafe)
    simpa [sumForDate] using h
  refine ⟨hmain, ?_, ?_, ?_, ?_, ?_⟩
  · intro before after e dateKey h
    simp [sumForDate, List.filter_append, List.filter, h]
  · intro list dateKey h
    have hnil : list.filter (fun e => sliceIsDate e.ts dateKey) = [] := by
      rw [List.filter_eq_nil_iff]
      intro e he
      simp [h e he]
    simp [sumForDate, hnil]
  · intro dateKey
    rfl
  · intro dateKey
    rfl
  · have h1 : sliceIsDate "2024-05-02T08:00:00.000Z" "2024-05-02" = true := by decide
    have h2 : sliceIsDate "2024-05-02T12:00:00.000Z" "2024-05-02" = true := by decide
    have h3 : sliceIsDate "2024-05-01T21:15:00.000Z" "2024-05-02" = false := by decide
    have h := hmain
      [{ id := "a", ts := "2024-05-02T08:00:00.000Z", amount := JsNum.fin 200 },
       { id := "b", ts := "2024-05-02T12:00:00.000Z", amount := JsNum.fin 300 },
       { id := "c", ts := "2024-05-01T21:15:00.000Z", amount := JsNum.fin 150 }]
      "2024-05-02"
      (by
        intro e he _
        simp only [List.mem_cons, List.mem_singleton, List.mem_nil_iff, or_false] at he
        rcases he with h | h | h
        · exact ⟨200, by rw [h]; norm_num⟩
        · exact ⟨300, by rw [h]; norm_num⟩
        · exact ⟨150, by rw [h]; norm_num⟩)
      (by
        simp only [List.filter, h1, h2, h3, List.map, List.sum_cons, List.sum_nil,
          JsNum.toRat]
        norm_num)
    rw [h]
    simp only [List.filter, h1, h2, h3, List.map, List.sum_cons, List.sum_nil, JsNum.toRat]
    norm_num

theorem roundDouble_cases (q : ℚ) :
    roundDouble q = JsNum.posInf ∨ roundDouble q = JsNum.negInf
      ∨ ∃ r : ℚ, roundDouble q = JsNum.fin r := by
  unfold roundDouble
  split_ifs
  · exact Or.inl rfl
  · exact Or.inr (Or.inl rfl)
  · exact Or.inr (Or.inr ⟨_, rfl⟩)

/-- The value `Math.round((total / goal) * 100)` for a finite total and a positive
goal: an infinity or an integer, and not negative when the total is not. -/
theorem roundedPercentJs_cases (total goal : ℚ) (hgoal : 0 < goal) :
    (roundedPercentJs (JsNum.fin total) (JsNum.fin goal) = JsNum.posInf
      ∨ (roundedPercentJs (JsNum.fin total) (JsNum.fin goal) = JsNum.negInf ∧ total < 0)
      ∨ ∃ k : Int, roundedPercentJs (JsNum.fin total) (JsNum.fin goal) = JsNum.fin (k : ℚ)
          ∧ (0 ≤ total → 0 ≤ k)) := by
  have hg : goal ≠ 0 := ne_of_gt hgoal
  have hdiv : JsNum.div (JsNum.fin total) (JsNum.fin goal) = roundDouble (total / goal) := by
    simp [JsNum.div, hg]
  unfold roundedPercentJs
  rw [hdiv]
  by_cases ht : 0 ≤ total
  · rcases roundDouble_nonneg (total / goal) (div_nonneg ht (le_of_lt hgoal)) with h | ⟨d, hd, h⟩
    · left
      rw [h]
      simp [JsNum.mul, JsNum.round]
    · rw [h]
      have hmul : JsNum.mul (JsNum.fin d) (JsNum.fin 100) = roundDouble (d * 100) := rfl
      rw [hmul]
      rcases roundDouble_nonneg (d * 100) (by positivity) with h2 | ⟨x, hx, h2⟩
      · left
        rw [h2]
        rfl
      · right; right
        rw [h2]
        refine ⟨⌊x + 1 / 2⌋, rfl, fun _ => Int.floor_nonneg.mpr (by positivity)⟩
  · have hneg : total < 0 := not_le.mp ht
    rcases roundDouble_cases (total / goal) with h | h | ⟨d, h⟩
    · left
      rw [h]
      simp [JsNum.mul, JsNum.round]
    · right; left
      rw [h]
      exact ⟨by simp [JsNum.mul, JsNum.round], hneg⟩
    · rw [h]
      have hmul : JsNum.mul (JsNum.fin d) (JsNum.fin 100) = roundDouble (d * 100) := rfl
      rw [hmul]
      rcases roundDouble_cases (d * 100) with h2 | h2 | ⟨x, h2⟩
      · left
        rw [h2]
        rfl
      · right; left
        rw [h2]
        exact ⟨rfl, hneg⟩
      · right; right
        rw [h2]
        exact ⟨⌊x + 1 / 2⌋, rfl, fun h0 => absurd h0 ht⟩

theorem or_zero_of_int (k : Int) :
    (JsNum.fin (k : ℚ)).or (JsNum.fin 0) = JsNum.fin (k : ℚ) := by
  unfold JsNum.or JsNum.truthy
  by_cases hz : (k : ℚ) = 0
  · simp [hz]
  · simp [hz]

/-- For a finite total and a positive goal `|| 0` changes nothing. -/
theorem roundedPercentJs_or_zero (total goal : ℚ) (hgoal : 0 < goal) :
    (roundedPercentJs (JsNum.fin total) (JsNum.fin goal)).or (JsNum.fin 0)
      = roundedPercentJs (JsNum.fin total) (JsNum.fin goal) := by
  rcases roundedPercentJs_cases total goal hgoal with h | ⟨h, _⟩ | ⟨k, h, _⟩
  · rw [h]; rfl
  · rw [h]; rfl
  · rw [h]; exact or_zero_of_int k

theorem percentOfGoal_eq_min (total goal : ℚ) (hgoal : 0 < goal) :
    percentOfGoal (JsNum.fin total) (JsNum.fin goal)
      = JsNum.min (JsNum.fin 100) (roundedPercentJs (JsNum.fin total) (JsNum.fin goal)) := by
  have h := roundedPercentJs_or_zero total goal hgoal
  unfold roundedPercentJs at h
  unfold percentOfGoal roundedPercentJs
  rw [h]

/-- The value of `Math.round((total / goal) * 100)` when the quotient is `m * 2 ^ k`
with a short `m` and the product is an integer: both roundings are exact. -/
theorem roundedPercentJs_exact (total goal : ℚ) (m k n : Int) (hgoal : goal ≠ 0)
    (hquot : total / goal = (m : ℚ) * (2 : ℚ) ^ k) (hm : |m| < 2 ^ 53) (hk : -1074 ≤ k)
    (hbig : |(m : ℚ) * (2 : ℚ) ^ k| < (2 : ℚ) ^ (1024 : Int))
    (hprod : (m : ℚ) * (2 : ℚ) ^ k * 100 = (n : ℚ)) (hn : |n| ≤ 2 ^ 53) :
    roundedPercentJs (JsNum.fin total) (JsNum.fin goal) = JsNum.fin (n : ℚ) := by
  have hdiv : JsNum.div (JsNum.fin total) (JsNum.fin goal) = roundDouble (total / goal) := by
    simp [JsNum.div, hgoal]
  unfold roundedPercentJs
  rw [hdiv, hquot, roundDouble_dyadic m k hm hk hbig]
  have hmul : JsNum.mul (JsNum.fin ((m : ℚ) * (2 : ℚ) ^ k)) (JsNum.fin 100)
      = roundDouble ((m : ℚ) * (2 : ℚ) ^ k * 100) := rfl
  rw [hmul, hprod, roundDouble_int n hn]
  simp [JsNum.round]
  norm_num

theorem min_hundred_le (x : JsNum) (hx : x ≠ JsNum.nan) :
    (JsNum.min (JsNum.fin 100) x).le (JsNum.fin 100) = true := by
  cases x with
  | nan => exact absurd rfl hx
  | posInf => simp [JsNum.min, JsNum.le]
  | negInf => simp [JsNum.min, JsNum.le]
  | fin q => simp [JsNum.min, JsNum.le]

/-- C2, refuted as stated. For the total -500 and the goal 2000 the value
`round(total / goal * 100)` is -25 and the percent of `renderToday` is -25 too: it is
below 0, and it is not that value clamped to [0, 100], which is 0. -/
theorem percentOfGoal_below_zero :
    roundedPercentJs (JsNum.fin ((-500 : Int) : ℚ)) (JsNum.fin ((2000 : Int) : ℚ))
        = JsNum.fin (-25)
    ∧ percentOfGoal (JsNum.fin ((-500 : Int) : ℚ)) (JsNum.fin ((2000 : Int) : ℚ))
        = JsNum.fin (-25)
    ∧ clampPercent
        (roundedPercentJs (JsNum.fin ((-500 : Int) : ℚ)) (JsNum.fin ((2000 : Int) : ℚ)))
        = JsNum.fin 0
    ∧ percentOfGoal (JsNum.fin ((-500 : Int) : ℚ)) (JsNum.fin ((2000 : Int) : ℚ))
        ≠ clampPercent
            (roundedPercentJs (JsNum.fin ((-500 : Int) : ℚ)) (JsNum.fin ((2000 : Int) : ℚ))) := by
  have hr : roundedPercentJs (JsNum.fin ((-500 : Int) : ℚ)) (JsNum.fin ((2000 : Int) : ℚ))
      = JsNum.fin (-25) := by
    have h := roundedPercentJs_exact ((-500 : Int) : ℚ) ((2000 : Int) : ℚ) (-1) (-2) (-25)
      (by norm_num) (by norm_num) (by norm_num) (by norm_num)
      (by rw [abs_lt]; constructor <;> norm_num) (by norm_num) (by norm_num)
    rw [h]
    norm_num
  have hp : percentOfGoal (JsNum.fin ((-500 : Int) : ℚ)) (JsNum.fin ((2000 : Int) : ℚ))
      = JsNum.fin (-25) := by
    rw [percentOfGoal_eq_min _ _ (by norm_num), hr]
    simp only [JsNum.min]
    norm_num
  have hc : clampPercent (JsNum.fin (-25)) = JsNum.fin 0 := by
    simp only [clampPercent]
    norm_num
  refine ⟨hr, hp, by rw [hr, hc], ?_⟩
  rw [hp, hr, hc]
  intro h
  injection h with h
  norm_num at h

/-- C2, amended. For every integer total and every positive integer goal the percent
of `renderToday` is the minimum of 100 and `round(total / goal * 100)`, the quotient
and the product computed in binary64: it is never above 100, and there is no lower
bound in the code. When moreover the total is not negative, it is that value clamped
to [0, 100], an integer between 0 and 100. -/
theorem percentOfGoal_upper_clamp (total goal : Int) (hgoal : 0 < goal) :
    percentOfGoal (JsNum.fin total) (JsNum.fin goal)
        = JsNum.min (JsNum.fin 100) (roundedPercentJs (JsNum.fin total) (JsNum.fin goal))
    ∧ (percentOfGoal (JsNum.fin total) (JsNum.fin goal)).le (JsNum.fin 100) = true
    ∧ (0 ≤ total →
        percentOfGoal (JsNum.fin total) (JsNum.fin goal)
            = clampPercent (roundedPercentJs (JsNum.fin total) (JsNum.fin goal))
        ∧ ∃ p : Int, 0 ≤ p ∧ p ≤ 100
            ∧ percentOfGoal (JsNum.fin total) (JsNum.fin goal) = JsNum.fin (p : ℚ)) := by
  have hg : (0 : ℚ) < (goal : ℚ) := by exact_mod_cast hgoal
  have hmin := percentOfGoal_eq_min (total : ℚ) (goal : ℚ) hg
  have hcases := roundedPercentJs_cases (total : ℚ) (goal : ℚ) hg
  refine ⟨hmin, ?_, ?_⟩
  · rw [hmin]
    apply min_hundred_le
    rcases hcases with h | ⟨h, _⟩ | ⟨k, h, _⟩ <;> rw [h] <;> simp
  · intro htotal
    have ht : (0 : ℚ) ≤ (total : ℚ) := by exact_mod_cast htotal
    rw [hmin]
    rcases hcases with h | ⟨_, hneg⟩ | ⟨k, h, hk⟩
    · rw [h]
      exact ⟨rfl, 100, by norm_num, by norm_num, by simp [JsNum.min]⟩
    · exact absurd ht (not_le.mpr hneg)
    · have hk0 : 0 ≤ k := hk ht
      have hkq : (0 : ℚ) ≤ (k : ℚ) := by exact_mod_cast hk0
      rw [h]
      refine ⟨?_, min 100 k, le_min (by norm_num) hk0, min_le_left _ _, ?_⟩
      · simp only [JsNum.min, clampPercent]
        rw [max_eq_right (le_min (by norm_num) hkq)]
      · simp only [JsNum.min, Int.cast_min]
        norm_num

/-- C2, the scenario: `percentOfGoal(500, 2000)` is 25, which is also the clamped
value. -/
theorem percentOfGoal_upper_clamp_witness :
    (0 : Int) < 2000
    ∧ percentOfGoal (JsNum.fin ((500 : Int) : ℚ)) (JsNum.fin ((2000 : Int) : ℚ)) = JsNum.fin 25
    ∧ clampPercent
        (roundedPercentJs (JsNum.fin ((500 : Int) : ℚ)) (JsNum.fin ((2000 : Int) : ℚ)))
        = JsNum.fin 25 := by
  have hr : roundedPercentJs (JsNum.fin ((500 : Int) : ℚ)) (JsNum.fin ((2000 : Int) : ℚ))
      = JsNum.fin 25 := by
    have h := roundedPercentJs_exact ((500 : Int) : ℚ) ((2000 : Int) : ℚ) 1 (-2) 25
      (by norm_num) (by norm_num) (by norm_num) (by norm_num)
      (by rw [abs_lt]; constructor <;> norm_num) (by norm_num) (by norm_num)
    rw [h]
    norm_num
  have h := percentOfGoal_upper_clamp 500 2000 (by decide)
  refine ⟨by decide, ?_, ?_⟩
  · rw [h.1, hr]
    simp only [JsNum.min]
    norm_num
  · rw [hr]
    simp only [clampPercent]
    norm_num


/-- In a zone with a fixed offset, `d.setDate(now.getDate() - i)` is the instant of
`d.setDate(now.getDate())` moved back by exactly `i` days. -/
theorem setDate_fixedZone_back (offset now : Int) (i : Nat) :
    setDate (fixedZone offset) now (getDate (fixedZone offset) now - i)
      = setDate (fixedZone offset) now (getDate (fixedZone offset) now) - i * msPerDay := by
  simp only [setDate, UTC, LocalTime, fixedZone, MakeDate, MakeDay, msPerDay]
  ring

set_option maxRecDepth 100000 in
/-- C3, evaluated at the failing input. In Central European time, at
2024-04-01T23:30:00Z (01:30 local time on 2 April, two days after the clocks went
forward), the weekly loop yields seven keys whose fifth and sixth are the same day,
2024-03-31, for every entry list: the keys are not strictly increasing by one day.
The last key is today's key, and in a zone with a fixed offset the same instant gives
seven consecutive days, as there every iteration of the loop is exactly one day of
24 hours before the next. -/
theorem weeklySeries_repeats_day (entries : List Entry) :
    (weeklySeries berlin2024 1712014200000 entries).map (fun d => d.key)
        = ["2024-03-27", "2024-03-28", "2024-03-29", "2024-03-30",
           "2024-03-31", "2024-03-31", "2024-04-01"]
    ∧ todayKey 1712014200000 = "2024-04-01"
    ∧ (weeklySeries (fixedZone 7200000) 1712014200000 entries).map (fun d => d.key)
        = ["2024-03-26", "2024-03-27", "2024-03-28", "2024-03-29",
           "2024-03-30", "2024-03-31", "2024-04-01"]
    ∧ (∀ (offset now : Int) (i : Nat),
        Day (setDate (fixedZone offset) now (getDate (fixedZone offset) now - i))
          = Day (setDate (fixedZone offset) now (getDate (fixedZone offset) now)) - i) := by
  refine ⟨?_, ?_, ?_, ?_⟩
  · simp only [weeklySeries, weekLoop, weekDay, List.map]
    decide
  · decide
  · simp only [weeklySeries, weekLoop, weekDay, List.map]
    decide
  · intro offset now i
    rw [setDate_fixedZone_back]
    simp only [Day, msPerDay]
    omega

theorem addEntry_rejected (amount : JsNum) (h : amount.gt (JsNum.fin 0) = false) :
    (!amount.truthy || amount.le (JsNum.fin 0)) = true := by
  cases amount with
  | nan => simp [JsNum.truthy]
  | posInf => simp [JsNum.gt] at h
  | negInf => simp [JsNum.truthy, JsNum.le]
  | fin q =>
    have hq : q ≤ 0 := by simpa [JsNum.gt] using h
    simp [JsNum.le, hq]

theorem addEntry_accepted (amount : JsNum) (h : amount.gt (JsNum.fin 0) = true) :
    (!amount.truthy || amount.le (JsNum.fin 0)) = false := by
  cases amount with
  | nan => simp [JsNum.gt] at h
  | posInf => simp [JsNum.truthy, JsNum.le]
  | negInf => simp [JsNum.gt] at h
  | fin q =>
    have hq : 0 < q := by simpa [JsNum.gt] using h
    simp [JsNum.truthy, JsNum.le, hq, ne_of_gt hq]

/-- A number that is not greater than 0 (zero, a negative number, `NaN`) adds nothing:
`addEntry(amount)` returns with the state as it was, signed in or not. -/
theorem addEntry_number_not_positive (env : Env) (w : World) (amount : JsNum)
    (h : amount.gt (JsNum.fin 0) = false) :
    addEntry env w (JsValue.num amount) = Outcome.returned w := by
  have hguard : (!(JsValue.num amount).truthy || (JsValue.num amount).toNumber.le (JsNum.fin 0))
      = true := addEntry_rejected amount h
  unfold addEntry
  rw [hguard]
  rfl

theorem jsNumber_text : jsNumber "abc" = JsNum.nan := by
  have h : parseNumeral "abc" = Numeral.notNumber := by decide
  simp [jsNumber, h, Numeral.toJsNum]

/-- C4, the code at the failing input. The preset `"abc"`, a text that is no number, is
not greater than 0: `"abc" > 0` is false. With nobody signed in, `addEntry("abc")`
does not return early: the guard `!amount || amount <= 0` is false for it, and the
local entries get one more entry, whose amount is `NaN`. -/
theorem addEntry_text_adds_entry :
    (JsValue.str "abc").toNumber.gt (JsNum.fin 0) = false
    ∧ addEntry envOnline worldSignedOut (JsValue.str "abc")
        = Outcome.returned
            { worldSignedOut with
              entries := worldSignedOut.entries ++
                [{ id := envOnline.uid, ts := envOnline.nowISO, amount := JsNum.nan }] }
    ∧ addEntry envOnline worldSignedOut (JsValue.str "abc")
        ≠ Outcome.returned worldSignedOut := by
  have hnum : (JsValue.str "abc").toNumber = JsNum.nan := jsNumber_text
  have hrun : addEntry envOnline worldSignedOut (JsValue.str "abc")
      = Outcome.returned
          { worldSignedOut with
            entries := worldSignedOut.entries ++
              [{ id := envOnline.uid, ts := envOnline.nowISO, amount := JsNum.nan }] } := by
    have hguard : (!(JsValue.str "abc").truthy
        || (JsValue.str "abc").toNumber.le (JsNum.fin 0)) = false := by
      rw [hnum]
      decide
    unfold addEntry
    rw [hguard]
    simp only [localInsert, hnum]
    rfl
  refine ⟨by rw [hnum]; rfl, hrun, ?_⟩
  rw [hrun]
  intro h
  injection h with h
  have hlen := congrArg (fun x => x.entries.length) h
  simp [worldSignedOut] at hlen

theorem addEntry_signed_out (env : Env) (w : World) (amount : JsNum)
    (hpos : amount.gt (JsNum.fin 0) = true) (huser : w.currentUser = none) :
    addEntry env w (JsValue.num amount) = Outcome.returned (localInsert env w (JsValue.num amount)) := by
  simp [addEntry, JsValue.truthy, JsValue.toNumber, addEntry_accepted amount hpos, huser]

theorem addEntry_insert_failed (env : Env) (w : World) (amount : JsNum) (user e : String)
    (hpos : amount.gt (JsNum.fin 0) = true) (huser : w.currentUser = some user)
    (hins : env.insertError = some e) :
    addEntry env w (JsValue.num amount) = Outcome.returned
      (localInsert env { w with calls := w.calls ++ [Call.insertLog user amount] } (JsValue.num amount)) := by
  simp [addEntry, JsValue.truthy, JsValue.toNumber, addEntry_accepted amount hpos, huser, Remote.insertLog, hins]

theorem addEntry_insert_ok (env : Env) (w : World) (amount : JsNum) (user : String)
    (hpos : amount.gt (JsNum.fin 0) = true) (huser : w.currentUser = some user)
    (hins : env.insertError = none) :
    addEntry env w (JsValue.num amount) = fetchEntriesFromSupabase env
      { w with
        remote := { w.remote with water_logs := w.remote.water_logs ++
          [{ id := env.rowId, user_id := user, amount_ml := amount,
             logged_at := env.rowTime }] },
        calls := w.calls ++ [Call.insertLog user amount] } := by
  simp [addEntry, JsValue.truthy, JsValue.toNumber, addEntry_accepted amount hpos, huser, Remote.insertLog, hins]

/-- C5. For every amount greater than 0, when nobody is signed in, or somebody is and the
remote insert fails, `addEntry(amount)` returns (no error reaches the caller) with the
local entries equal to the prior entries followed by exactly one new entry, whose
amount is the requested amount, whose id is the value of `uid()` and whose timestamp
is the current time; the remote store is as it was. -/
theorem addEntry_local_fallback (env : Env) (w : World) (amount : JsNum)
    (hpos : amount.gt (JsNum.fin 0) = true)
    (hlocal : w.currentUser = none ∨ env.insertError ≠ none) :
    ∃ w1 : World, addEntry env w (JsValue.num amount) = Outcome.returned w1
      ∧ w1.entries = w.entries ++ [{ id := env.uid, ts := env.nowISO, amount := amount }]
      ∧ w1.remote = w.remote := by
  cases huser : w.currentUser with
  | none => exact ⟨_, addEntry_signed_out env w amount hpos huser, rfl, rfl⟩
  | some user =>
    rcases hlocal with hnone | herr
    · rw [huser] at hnone
      cases hnone
    · cases hins : env.insertError with
      | none => exact absurd hins herr
      | some e => exact ⟨_, addEntry_insert_failed env w amount user e hpos huser hins, rfl, rfl⟩

/-- C5 at the amount 300: signed in with the insert failing, the one prior entry is
kept and one entry of 300 follows it. -/
theorem addEntry_local_fallback_witness :
    (JsNum.fin 300).gt (JsNum.fin 0) = true
    ∧ (worldAlice.currentUser = none ∨ envOffline.insertError ≠ none)
    ∧ ∃ w1 : World, addEntry envOffline worldAlice (JsValue.num (JsNum.fin 300)) = Outcome.returned w1
      ∧ w1.entries = worldAlice.entries ++
          [{ id := envOffline.uid, ts := envOffline.nowISO, amount := JsNum.fin 300 }]
      ∧ w1.remote = worldAlice.remote :=
  have hpos : (JsNum.fin 300).gt (JsNum.fin 0) = true := by simp [JsNum.gt]
  have hlocal : worldAlice.currentUser = none ∨ envOffline.insertError ≠ none :=
    Or.inr (by decide)
  ⟨hpos, hlocal, addEntry_local_fallback envOffline worldAlice (JsNum.fin 300) hpos hlocal⟩

theorem fetch_signed_out (env : Env) (w : World) (huser : w.currentUser = none) :
    fetchEntriesFromSupabase env w = Outcome.returned w := by
  simp [fetchEntriesFromSupabase, huser]

theorem fetch_failed (env : Env) (w : World) (user e : String)
    (huser : w.currentUser = some user) (hsel : env.selectError = some e) :
    fetchEntriesFromSupabase env w
      = Outcome.returned { w with calls := w.calls ++ [Call.selectLogs user] } := by
  simp [fetchEntriesFromSupabase, huser, Remote.selectLogs, hsel, Outcome.catch]

theorem fetch_ok (env : Env) (w : World) (user : String)
    (huser : w.currentUser = some user) (hsel : env.selectError = none) :
    fetchEntriesFromSupabase env w
      = Outcome.returned { w with
          entries := (w.remote.logsOf user).map rowToEntry,
          calls := w.calls ++ [Call.selectLogs user] } := by
  simp [fetchEntriesFromSupabase, huser, Remote.selectLogs, hsel, Outcome.catch]

/-- The listing of an identity after one more row of that identity is stored: the
new row and the rows listed before, in some order. -/
theorem logsOf_append_perm (r : Remote) (user : String) (row : LogRow)
    (hrow : row.user_id = user) :
    ({ r with water_logs := r.water_logs ++ [row] } : Remote).logsOf user
      |>.Perm (row :: r.logsOf user) := by
  unfold Remote.logsOf
  have hfilter : (r.water_logs ++ [row]).filter (fun x => x.user_id == user)
      = r.water_logs.filter (fun x => x.user_id == user) ++ [row] := by
    simp [List.filter_append, List.filter, hrow]
  simp only [hfilter]
  refine (List.perm_insertionSort _ _).trans ?_
  refine List.perm_append_singleton _ _ |>.trans ?_
  exact List.Perm.cons _ (List.perm_insertionSort _ _).symm

/-- C6, refuted as stated. `alice` is signed in and adds 300; the remote insert succeeds
and the listing that follows it fails. `addEntry` ends with the local entries as they
were before the call, while the remote store lists two rows for `alice`, the new one
first: the local collection is not the remote entry set and lacks the new entry. -/
theorem addEntry_refresh_failed :
    ∃ w1 : World, addEntry envInsertOnly worldAlice (JsValue.num (JsNum.fin 300)) = Outcome.returned w1
      ∧ w1.entries = [{ id := "local-0", ts := "2024-05-02T07:00:00.000Z",
                        amount := JsNum.fin 200 }]
      ∧ (w1.remote.logsOf "alice").map rowToEntry
          = [{ id := "row-9", ts := "2024-05-02T12:00:00+00:00", amount := JsNum.fin 300 },
             { id := "row-1", ts := "2024-05-02T08:00:00+00:00", amount := JsNum.fin 250 }]
      ∧ w1.entries ≠ (w1.remote.logsOf "alice").map rowToEntry := by
  have h1 := addEntry_insert_ok envInsertOnly worldAlice (JsNum.fin 300) "alice"
    (by simp [JsNum.gt]) rfl rfl
  have h2 := h1.trans (fetch_failed envInsertOnly _ "alice" "Failed to fetch" rfl rfl)
  exact ⟨_, h2, by decide, by decide, by decide⟩

/-- C6, amended. For every amount greater than 0, when somebody is signed in, the
remote insert succeeds and the listing that follows it succeeds too, `addEntry(amount)`
returns with one row added to the remote store for that identity and with the local
entries equal to the remote store's listing for that identity, each row mapped to
`{ id, amount, ts }`: they are the entries listed before the call and the new entry
exactly once more, and nothing is generated locally. -/
theorem addEntry_remote_success (env : Env) (w : World) (amount : JsNum) (user : String)
    (hpos : amount.gt (JsNum.fin 0) = true) (huser : w.currentUser = some user)
    (hins : env.insertError = none) (hsel : env.selectError = none) :
    ∃ w1 : World, addEntry env w (JsValue.num amount) = Outcome.returned w1
      ∧ w1.remote.water_logs = w.remote.water_logs ++
          [{ id := env.rowId, user_id := user, amount_ml := amount,
             logged_at := env.rowTime }]
      ∧ w1.entries = (w1.remote.logsOf user).map rowToEntry
      ∧ w1.entries.Perm
          ({ id := env.rowId, ts := env.rowTime, amount := amount }
            :: (w.remote.logsOf user).map rowToEntry) := by
  have h1 := addEntry_insert_ok env w amount user hpos huser hins
  have h2 := h1.trans (fetch_ok env _ user huser hsel)
  exact ⟨_, h2, rfl, rfl, (logsOf_append_perm w.remote user _ rfl).map rowToEntry⟩

/-- C6, amended, at the amount 300 with every remote call succeeding. -/
theorem addEntry_remote_success_witness :
    ∃ w1 : World, addEntry envOnline worldAlice (JsValue.num (JsNum.fin 300)) = Outcome.returned w1
      ∧ w1.remote.water_logs = worldAlice.remote.water_logs ++
          [{ id := envOnline.rowId, user_id := "alice", amount_ml := JsNum.fin 300,
             logged_at := envOnline.rowTime }]
      ∧ w1.entries = (w1.remote.logsOf "alice").map rowToEntry
      ∧ w1.entries.Perm
          ({ id := envOnline.rowId, ts := envOnline.rowTime, amount := JsNum.fin 300 }
            :: (worldAlice.remote.logsOf "alice").map rowToEntry) :=
  addEntry_remote_success envOnline worldAlice (JsNum.fin 300) "alice"
    (by simp [JsNum.gt]) rfl rfl rfl

/-- C7, refuted as stated. `alice` is signed in, the remote store holds one row of hers
and does not change. The listing of the first `refreshFromRemote` fails and that of the
second is delivered: after the first call the local entries are the prior local entry,
not the remote rows, and after the second they are the remote row, not the collection
after the first call. -/
theorem fetchEntries_first_listing_failed :
    ∃ w1 w2 : World,
      fetchEntriesFromSupabase envInsertOnly worldAlice = Outcome.returned w1
      ∧ fetchEntriesFromSupabase envOnline w1 = Outcome.returned w2
      ∧ w1.remote = worldAlice.remote
      ∧ w2.remote = worldAlice.remote
      ∧ w1.entries = [{ id := "local-0", ts := "2024-05-02T07:00:00.000Z",
                        amount := JsNum.fin 200 }]
      ∧ w1.entries ≠ (worldAlice.remote.logsOf "alice").map rowToEntry
      ∧ w2.entries = [{ id := "row-1", ts := "2024-05-02T08:00:00+00:00",
                        amount := JsNum.fin 250 }]
      ∧ w2.entries ≠ w1.entries := by
  have h1 := fetch_failed envInsertOnly worldAlice "alice" "Failed to fetch" rfl rfl
  have h2 := fetch_ok envOnline
    { worldAlice with calls := worldAlice.calls ++ [Call.selectLogs "alice"] } "alice" rfl rfl
  exact ⟨_, _, h1, h2, rfl, rfl, by decide, by decide, by decide, by decide⟩

/-- C7, amended. With somebody signed in and the remote store unchanged, two calls of
`refreshFromRemote` return, neither throws, and, unless the first listing fails and
the second is delivered, the local entries after the second call are those after the
first. When the first listing is delivered, the entries after the first call are the
listed rows of that identity mapped one-to-one, in order, to `{ id, amount, ts }`,
whatever the local collection held before. -/
theorem fetchEntries_idempotent (env1 env2 : Env) (w : World) (user : String)
    (huser : w.currentUser = some user)
    (hlisting : env1.selectError = none ∨ env2.selectError ≠ none) :
    ∃ w1 w2 : World,
      fetchEntriesFromSupabase env1 w = Outcome.returned w1
      ∧ fetchEntriesFromSupabase env2 w1 = Outcome.returned w2
      ∧ w2.entries = w1.entries
      ∧ w1.remote = w.remote
      ∧ w2.remote = w.remote
      ∧ (env1.selectError = none →
          w1.entries = (w.remote.logsOf user).map rowToEntry
          ∧ w1.entries.length = (w.remote.logsOf user).length
          ∧ ∀ localEntries : List Entry, ∃ w3 : World,
              fetchEntriesFromSupabase env1 { w with entries := localEntries }
                = Outcome.returned w3
              ∧ w3.entries = w1.entries) := by
  cases hsel : env1.selectError with
  | some e =>
    have hne : env2.selectError ≠ none := by
      rcases hlisting with h | h
      · rw [hsel] at h
        cases h
      · exact h
    cases hsel2 : env2.selectError with
    | none => exact absurd hsel2 hne
    | some e2 =>
      refine ⟨_, _, fetch_failed env1 w user e huser hsel,
        fetch_failed env2 _ user e2 huser hsel2, rfl, rfl, rfl, ?_⟩
      intro h
      cases h
  | none =>
    have hcontent : ∀ w1 : World, w1.entries = (w.remote.logsOf user).map rowToEntry →
        w1.entries = (w.remote.logsOf user).map rowToEntry
          ∧ w1.entries.length = (w.remote.logsOf user).length
          ∧ ∀ localEntries : List Entry, ∃ w3 : World,
              fetchEntriesFromSupabase env1 { w with entries := localEntries }
                = Outcome.returned w3
              ∧ w3.entries = w1.entries := by
      intro w1 h1
      refine ⟨h1, by simp [h1], ?_⟩
      intro localEntries
      exact ⟨_, fetch_ok env1 { w with entries := localEntries } user huser hsel, h1.symm⟩
    cases hsel2 : env2.selectError with
    | none =>
      exact ⟨_, _, fetch_ok env1 w user huser hsel, fetch_ok env2 _ user huser hsel2,
        rfl, rfl, rfl, fun _ => hcontent _ rfl⟩
    | some e2 =>
      exact ⟨_, _, fetch_ok env1 w user huser hsel, fetch_failed env2 _ user e2 huser hsel2,
        rfl, rfl, rfl, fun _ => hcontent _ rfl⟩

/-- C7, amended, for `alice` with every remote call succeeding. -/
theorem fetchEntries_idempotent_witness :
    ∃ w1 w2 : World,
      fetchEntriesFromSupabase envOnline worldAlice = Outcome.returned w1
      ∧ fetchEntriesFromSupabase envOnline w1 = Outcome.returned w2
      ∧ w2.entries = w1.entries
      ∧ w1.entries = [{ id := "row-1", ts := "2024-05-02T08:00:00+00:00",
                        amount := JsNum.fin 250 }] := by
  obtain ⟨w1, w2, h1, h2, h3, _, _, h5⟩ :=
    fetchEntries_idempotent envOnline envOnline worldAlice "alice" rfl (Or.inl rfl)
  refine ⟨w1, w2, h1, h2, h3, ?_⟩
  rw [(h5 rfl).1]
  decide

/-- C8. When nobody is signed in, or the remote listing fails, `refreshFromRemote`
returns (no error reaches the caller) and leaves the local entries, and the remote
store, exactly as they were. -/
theorem fetchEntries_failure_keeps_local (env : Env) (w : World)
    (h : w.currentUser = none ∨ env.selectError ≠ none) :
    ∃ w1 : World, fetchEntriesFromSupabase env w = Outcome.returned w1
      ∧ w1.entries = w.entries ∧ w1.remote = w.remote := by
  cases huser : w.currentUser with
  | none => exact ⟨_, fetch_signed_out env w huser, rfl, rfl⟩
  | some user =>
    rcases h with hnone | herr
    · rw [huser] at hnone
      cases hnone
    · cases hsel : env.selectError with
      | none => exact absurd hsel herr
      | some e => exact ⟨_, fetch_failed env w user e huser hsel, rfl, rfl⟩

/-- C8 for `alice` with the listing failing, and for the signed-out state. -/
theorem fetchEntries_failure_keeps_local_witness :
    (∃ w1 : World, fetchEntriesFromSupabase envOffline worldAlice = Outcome.returned w1
      ∧ w1.entries = worldAlice.entries ∧ w1.remote = worldAlice.remote)
    ∧ (∃ w1 : World, fetchEntriesFromSupabase envOnline worldSignedOut = Outcome.returned w1
      ∧ w1.entries = worldSignedOut.entries ∧ w1.remote = worldSignedOut.remote) :=
  ⟨fetchEntries_failure_keeps_local envOffline worldAlice (Or.inr (by decide)),
   fetchEntries_failure_keeps_local envOnline worldSignedOut (Or.inl rfl)⟩

/-- C9. For every identity `A` that is signed in, `sendRequest(A, A)` ends with the
self-reference alert and the state exactly as it was, whatever the store holds: the
duplicate check is not made and no friendship row is inserted. -/
theorem sendFriendRequest_self (env : Env) (w : World) (A : String)
    (huser : w.currentUser = some A) :
    sendFriendRequest env w A = (w, selfReferenceError) := by
  simp [sendFriendRequest, huser]

/-- C9 for `alice`, her request to `bob` pending in the store. -/
theorem sendFriendRequest_self_witness :
    worldPending.currentUser = some "alice"
    ∧ sendFriendRequest envOnline worldPending "alice" = (worldPending, "Cannot add yourself") :=
  ⟨rfl, sendFriendRequest_self envOnline worldPending "alice" rfl⟩

theorem between_comm (r : Remote) (a b : String) : r.between a b = r.between b a := by
  unfold Remote.between
  congr 1
  funext row
  exact Bool.or_comm _ _

theorem insertRequest_ok (env : Env) (w : World) (me other : String)
    (hins : env.insertError = none) :
    insertRequest env w me other
      = ({ w with
           remote := { w.remote with friendships := w.remote.friendships ++
             [{ id := env.rowId, requester_id := me, receiver_id := other,
                status := "pending", created_at := env.rowTime }] },
           calls := w.calls ++ [Call.insertFriendship me other] },
         "Friend request sent") := by
  simp [insertRequest, Remote.insertFriendship, hins]

/-- `sendFriendRequest` when the duplicate check is delivered and returns a row. -/
theorem sendFriendRequest_row (env : Env) (w : World) (me other : String) (row : Friendship)
    (hne : other ≠ me) (huser : w.currentUser = some me) (hcheck : env.selectError = none)
    (hrow : (w.remote.between me other).head? = some row) :
    sendFriendRequest env w other
      = if row.status = "pending" then
          ({ w with calls := w.calls ++ [Call.selectFriendship me other] },
            duplicatePendingError)
        else if row.status = "accepted" then
          ({ w with calls := w.calls ++ [Call.selectFriendship me other] },
            alreadyFriendsError)
        else insertRequest env
          { w with calls := w.calls ++ [Call.selectFriendship me other] } me other := by
  cases hl : w.remote.between me other with
  | nil => simp [hl] at hrow
  | cons first rest =>
    have hfirst : first = row := by simpa [hl] using hrow
    subst hfirst
    simp [sendFriendRequest, huser, hne, Remote.selectFriendship, hcheck, hl]

/-- `sendFriendRequest` when the store holds no row of the pair. -/
theorem sendFriendRequest_no_row (env : Env) (w : World) (me other : String)
    (hne : other ≠ me) (huser : w.currentUser = some me)
    (hnone : w.remote.between me other = []) :
    sendFriendRequest env w other
      = insertRequest env
          { w with calls := w.calls ++ [Call.selectFriendship me other] } me other := by
  cases hsel : env.selectError with
  | none => simp [sendFriendRequest, huser, hne, Remote.selectFriendship, hsel, hnone]
  | some e => simp [sendFriendRequest, huser, hne, Remote.selectFriendship, hsel]

/-- The rows of a pair after the pair's first row is stored. -/
theorem between_append_first (r : Remote) (a b : String) (row : Friendship)
    (hnone : r.between a b = []) (hreq : row.requester_id = a) (hrec : row.receiver_id = b) :
    ({ r with friendships := r.friendships ++ [row] } : Remote).between a b = [row] := by
  unfold Remote.between at hnone ⊢
  simp only [List.filter_append, hnone, List.nil_append]
  simp [List.filter, hreq, hrec]

/-- C10, refuted as stated. The request of `alice` to `bob` is pending in the store and
the duplicate check fails: `sendRequest(alice, bob)` does not end with the
duplicate-pending alert, it alerts that the request was sent, and a second pending row
of the pair is stored. -/
theorem sendFriendRequest_pending_not_blocked :
    worldPending.remote.between "alice" "bob" = [requestAliceBob]
    ∧ requestAliceBob.status = "pending"
    ∧ (sendFriendRequest envCheckFails worldPending "bob").2 = "Friend request sent"
    ∧ (sendFriendRequest envCheckFails worldPending "bob").2 ≠ duplicatePendingError
    ∧ (sendFriendRequest envCheckFails worldPending "bob").1.remote.friendships
        = [requestAliceBob,
           { id := "row-10", requester_id := "alice", receiver_id := "bob",
             status := "pending", created_at := "2024-05-02T12:00:00+00:00" }] := by
  decide

/-- The check asks the store for one row of the pair, `.limit(1)`: when the store holds
a rejected row of the pair before a pending one, the check returns the rejected row
and the request is sent. -/
theorem sendFriendRequest_checks_first_row :
    (sendFriendRequest envOnline worldRejectedPending "bob").2 = "Friend request sent"
    ∧ (sendFriendRequest envOnline worldRejectedPending "bob").1.remote.friendships
        = [{ requestAliceBob with status := "rejected" },
           { requestAliceBob with id := "f-2" },
           { id := "row-9", requester_id := "alice", receiver_id := "bob",
             status := "pending", created_at := "2024-05-02T12:00:00+00:00" }] := by
  decide

/-- C10, amended. For all distinct identities `A` (signed in) and `B`: when the
duplicate check is delivered and the store holds one row of the pair, in either
direction, then if that row has status pending `sendRequest` ends with the
duplicate-pending alert, and if it has status accepted, with the already-friends
alert; in both cases the store is as it was, so no row is inserted and the row keeps
its status. In particular, after `sendRequest(A, B)` succeeds on a store with no row of
the pair, a second `sendRequest(A, B)` and a `sendRequest(B, A)` whose check is
delivered both end with the duplicate-pending alert and leave the store as it was, the
first row still pending. -/
theorem sendFriendRequest_duplicate_check (env : Env) (w : World) (A B : String)
    (row : Friendship) (hAB : A ≠ B) (huser : w.currentUser = some A)
    (hcheck : env.selectError = none)
    (hrow : w.remote.between A B = [row] ∨ w.remote.between B A = [row]) :
    (row.status = "pending" →
      sendFriendRequest env w B
        = ({ w with calls := w.calls ++ [Call.selectFriendship A B] }, duplicatePendingError))
    ∧ (row.status = "accepted" →
      sendFriendRequest env w B
        = ({ w with calls := w.calls ++ [Call.selectFriendship A B] }, alreadyFriendsError))
    ∧ (∀ (env1 env2 : Env) (w0 : World),
        w0.currentUser = some A → w0.remote.between A B = [] →
        env1.insertError = none → env2.selectError = none →
        ∃ w1 : World,
          sendFriendRequest env1 w0 B = (w1, "Friend request sent")
          ∧ w1.remote.friendships = w0.remote.friendships ++
              [{ id := env1.rowId, requester_id := A, receiver_id := B,
                 status := "pending", created_at := env1.rowTime }]
          ∧ sendFriendRequest env2 w1 B
              = ({ w1 with calls := w1.calls ++ [Call.selectFriendship A B] },
                 duplicatePendingError)
          ∧ sendFriendRequest env2 { w1 with currentUser := some B } A
              = ({ w1 with currentUser := some B,
                           calls := w1.calls ++ [Call.selectFriendship B A] },
                 duplicatePendingError)) := by
  have hBA : B ≠ A := fun h => hAB h.symm
  have hone : w.remote.between A B = [row] := by
    rcases hrow with h | h
    · exact h
    · exact (between_comm _ A B).trans h
  have hsend := sendFriendRequest_row env w A B row hBA huser hcheck (by rw [hone]; rfl)
  refine ⟨?_, ?_, ?_⟩
  · intro hp
    rw [hsend, if_pos hp]
  · intro ha
    have hnp : row.status ≠ "pending" := by
      rw [ha]
      decide
    rw [hsend, if_neg hnp, if_pos ha]
  · intro env1 env2 w0 huser0 hnone hins hsel
    have h1 := (sendFriendRequest_no_row env1 w0 A B hBA huser0 hnone).trans
      (insertRequest_ok env1 _ A B hins)
    have hb := between_append_first w0.remote A B
      { id := env1.rowId, requester_id := A, receiver_id := B,
        status := "pending", created_at := env1.rowTime } hnone rfl rfl
    have key : ∀ (v : World) (me other : String) (first : Friendship),
        other ≠ me → v.currentUser = some me → v.remote.between me other = [first] →
        first.status = "pending" →
        sendFriendRequest env2 v other
          = ({ v with calls := v.calls ++ [Call.selectFriendship me other] },
             duplicatePendingError) := by
      intro v me other first hne hu hbetween hstatus
      rw [sendFriendRequest_row env2 v me other first hne hu hsel (by rw [hbetween]; rfl),
        if_pos hstatus]
    refine ⟨_, h1, rfl, ?_, ?_⟩
    · exact key _ A B _ hBA huser0 hb rfl
    · exact key _ B A _ hAB rfl ((between_comm _ B A).trans hb) rfl

/-- C10, amended, for `alice` and `bob`: with her request pending and the check
delivered, a second request of `alice` ends with the duplicate-pending alert and the
store as it was; and after her first request on an empty store succeeds, her second
request and the request of `bob` both end with the duplicate-pending alert. -/
theorem sendFriendRequest_duplicate_check_witness :
    sendFriendRequest envOnline worldPending "bob"
        = ({ worldPending with calls := [Call.selectFriendship "alice" "bob"] },
           "A friend request is already pending between you and this user.")
    ∧ ∃ w1 : World,
        sendFriendRequest envOnline worldAlice "bob" = (w1, "Friend request sent")
        ∧ w1.remote.friendships
            = [{ id := "row-9", requester_id := "alice", receiver_id := "bob",
                 status := "pending", created_at := "2024-05-02T12:00:00+00:00" }]
        ∧ sendFriendRequest envOnline w1 "bob"
            = ({ w1 with calls := w1.calls ++ [Call.selectFriendship "alice" "bob"] },
               duplicatePendingError)
        ∧ sendFriendRequest envOnline { w1 with currentUser := some "bob" } "alice"
            = ({ w1 with currentUser := some "bob",
                         calls := w1.calls ++ [Call.selectFriendship "bob" "alice"] },
               duplicatePendingError) :=
  have h := sendFriendRequest_duplicate_check envOnline worldPending "alice" "bob"
    requestAliceBob (by decide) rfl rfl (Or.inl (by decide))
  ⟨h.1 rfl, h.2.2 envOnline envOnline worldAlice rfl (by decide) rfl rfl⟩

/-- C15. `removeEntry(id)` leaves exactly the prior entries whose id is not `id`: an
entry is in the new collection exactly when it was in the prior one with another id,
the new collection is the prior one with entries left out (the order is kept), the
entries of every other id are the same, removing an absent id changes nothing,
removing twice is removing once, and the remote store and the calls made to it are as
they were. -/
theorem removeEntry_spec (w : World) (id : String) :
    (removeEntry w id).entries = w.entries.filter (fun x => x.id != id)
    ∧ (∀ x : Entry, x ∈ (removeEntry w id).entries ↔ x ∈ w.entries ∧ x.id ≠ id)
    ∧ (removeEntry w id).entries.Sublist w.entries
    ∧ (∀ other : String, other ≠ id →
        (removeEntry w id).entries.filter (fun x => x.id == other)
          = w.entries.filter (fun x => x.id == other))
    ∧ ((∀ x ∈ w.entries, x.id ≠ id) → removeEntry w id = w)
    ∧ removeEntry (removeEntry w id) id = removeEntry w id
    ∧ (removeEntry w id).remote = w.remote
    ∧ (removeEntry w id).calls = w.calls
    ∧ (removeEntry w id).currentUser = w.currentUser := by
  refine ⟨rfl, ?_, ?_, ?_, ?_, ?_, rfl, rfl, rfl⟩
  · intro x
    simp [removeEntry, List.mem_filter]
  · exact List.filter_sublist _
  · intro other hne
    simp only [removeEntry, List.filter_filter]
    apply List.filter_congr
    intro x _
    by_cases hx : x.id = other
    · have : x.id ≠ id := by rw [hx]; exact hne
      simp [hx, hne]
    · simp [hx]
  · intro h
    have hall : w.entries.filter (fun x => x.id != id) = w.entries := by
      apply List.filter_eq_self.mpr
      intro x hx
      simpa using h x hx
    cases w
    simp only [removeEntry] at hall ⊢
    simp [hall]
  · simp [removeEntry, List.filter_filter]

theorem goalOrDefault_positive (goal : ℚ) (hgoal : 0 < goal) :
    goalOrDefault (some (JsNum.fin goal)) = JsNum.fin goal := by
  have hg : goal ≠ 0 := ne_of_gt hgoal
  simp [goalOrDefault, JsNum.or, JsNum.truthy, hg]

theorem friendPercent_eq (total goal : ℚ) (hgoal : 0 < goal) :
    friendPercent (JsNum.fin total) (some (JsNum.fin goal))
      = roundedPercentJs (JsNum.fin total) (JsNum.fin goal) := by
  unfold friendPercent
  rw [goalOrDefault_positive goal hgoal]
  exact roundedPercentJs_or_zero total goal hgoal

theorem roundedPercentJs_double (goal : ℚ) (hgoal : 0 < goal) :
    roundedPercentJs (JsNum.fin (2 * goal)) (JsNum.fin goal) = JsNum.fin 200 := by
  have h := roundedPercentJs_exact (2 * goal) goal 1 1 200 (ne_of_gt hgoal)
    (by field_simp) (by norm_num) (by norm_num)
    (by rw [abs_lt]; constructor <;> norm_num) (by norm_num) (by norm_num)
  rw [h]
  norm_num

/-- C16. For every finite friend total and every positive friend goal, the percent of
the friend list and of the friend profile is `round(total / goal * 100)`, computed in
binary64, with no upper bound; the percent of the self-progress view for the same total
and goal is the minimum of 100 and that value, and the width of the friend's bar is
that minimum too. The friend percent does exceed 100: a total of twice the goal gives
200 for the friend, and 100 for oneself and for the bar. -/
theorem friendPercent_unclamped (total goal : ℚ) (hgoal : 0 < goal) :
    friendPercent (JsNum.fin total) (some (JsNum.fin goal))
        = roundedPercentJs (JsNum.fin total) (JsNum.fin goal)
    ∧ friendProfilePercent (JsNum.fin total) (some (JsNum.fin goal))
        = roundedPercentJs (JsNum.fin total) (JsNum.fin goal)
    ∧ percentOfGoal (JsNum.fin total) (JsNum.fin goal)
        = JsNum.min (JsNum.fin 100) (roundedPercentJs (JsNum.fin total) (JsNum.fin goal))
    ∧ friendBarWidth (friendPercent (JsNum.fin total) (some (JsNum.fin goal)))
        = JsNum.min (JsNum.fin 100) (roundedPercentJs (JsNum.fin total) (JsNum.fin goal))
    ∧ friendPercent (JsNum.fin (2 * goal)) (some (JsNum.fin goal)) = JsNum.fin 200
    ∧ friendProfilePercent (JsNum.fin (2 * goal)) (some (JsNum.fin goal)) = JsNum.fin 200
    ∧ percentOfGoal (JsNum.fin (2 * goal)) (JsNum.fin goal) = JsNum.fin 100
    ∧ friendBarWidth (friendPercent (JsNum.fin (2 * goal)) (some (JsNum.fin goal)))
        = JsNum.fin 100 := by
  have hprofile : ∀ t : ℚ, friendProfilePercent (JsNum.fin t) (some (JsNum.fin goal))
      = roundedPercentJs (JsNum.fin t) (JsNum.fin goal) := by
    intro t
    unfold friendProfilePercent
    simp only [goalOrDefault_positive goal hgoal]
    exact roundedPercentJs_or_zero t goal hgoal
  have hmin : JsNum.min (JsNum.fin 100) (JsNum.fin 200) = JsNum.fin 100 := by
    simp only [JsNum.min]
    norm_num
  refine ⟨friendPercent_eq total goal hgoal, hprofile total,
    percentOfGoal_eq_min total goal hgoal, ?_, ?_, ?_, ?_, ?_⟩
  · rw [friendPercent_eq total goal hgoal]
    rfl
  · rw [friendPercent_eq (2 * goal) goal hgoal, roundedPercentJs_double goal hgoal]
  · rw [hprofile, roundedPercentJs_double goal hgoal]
  · rw [percentOfGoal_eq_min (2 * goal) goal hgoal, roundedPercentJs_double goal hgoal, hmin]
  · rw [friendPercent_eq (2 * goal) goal hgoal, roundedPercentJs_double goal hgoal]
    exact hmin

/-- C16 at the total 3000 and the goal 2000: the friend percent is 150, the
self-progress percent and the width of the bar are 100. -/
theorem friendPercent_unclamped_witness :
    (0 : ℚ) < 2000
    ∧ friendPercent (JsNum.fin 3000) (some (JsNum.fin 2000)) = JsNum.fin 150
    ∧ friendProfilePercent (JsNum.fin 3000) (some (JsNum.fin 2000)) = JsNum.fin 150
    ∧ percentOfGoal (JsNum.fin 3000) (JsNum.fin 2000) = JsNum.fin 100
    ∧ friendBarWidth (friendPercent (JsNum.fin 3000) (some (JsNum.fin 2000)))
        = JsNum.fin 100 := by
  have h := friendPercent_unclamped 3000 2000 (by norm_num)
  have hr : roundedPercentJs (JsNum.fin 3000) (JsNum.fin 2000) = JsNum.fin 150 := by
    have h := roundedPercentJs_exact 3000 2000 3 (-1) 150
      (by norm_num) (by norm_num) (by norm_num) (by norm_num)
      (by rw [abs_lt]; constructor <;> norm_num) (by norm_num) (by norm_num)
    rw [h]
    norm_num
  have hmin : JsNum.min (JsNum.fin 100) (JsNum.fin 150) = JsNum.fin 100 := by
    simp only [JsNum.min]
    norm_num
  refine ⟨by norm_num, ?_, ?_, ?_, ?_⟩
  · rw [h.1, hr]
  · rw [h.2.1, hr]
  · rw [h.2.2.1, hr, hmin]
  · rw [h.2.2.2.1, hr, hmin]

theorem jsNumber_empty : jsNumber "" = JsNum.fin 0 := by
  have h : parseNumeral "" = Numeral.decimal false 0 0 := by decide
  have hr := roundDouble_int 0 (by norm_num)
  simp only [jsNumber, h, Numeral.toJsNum]
  norm_num at hr ⊢
  exact hr

theorem jsNumber_zero : jsNumber "0" = JsNum.fin 0 := by
  have h : parseNumeral "0" = Numeral.decimal false 0 0 := by decide
  have hr := roundDouble_int 0 (by norm_num)
  simp only [jsNumber, h, Numeral.toJsNum]
  norm_num at hr ⊢
  exact hr

theorem jsNumber_integer : jsNumber "2500" = JsNum.fin 2500 := by
  have h : parseNumeral "2500" = Numeral.decimal false 2500 0 := by decide
  have hr := roundDouble_int 2500 (by norm_num)
  simp only [jsNumber, h, Numeral.toJsNum]
  norm_num at hr ⊢
  exact hr

theorem jsNumber_fraction : jsNumber "2.5" = JsNum.fin (5 / 2) := by
  have h : parseNumeral "2.5" = Numeral.decimal false 25 (-1) := by decide
  have hr := roundDouble_dyadic 5 (-1) (by norm_num) (by norm_num)
    (by rw [abs_lt]; constructor <;> norm_num)
  simp only [jsNumber, h, Numeral.toJsNum]
  norm_num at hr ⊢
  exact hr

theorem jsNumber_negative : jsNumber "-5" = JsNum.fin (-5) := by
  have h : parseNumeral "-5" = Numeral.decimal true 5 0 := by decide
  have hr := roundDouble_int (-5) (by norm_num)
  simp only [jsNumber, h, Numeral.toJsNum]
  norm_num at hr ⊢
  exact hr

theorem jsNumber_overflow : jsNumber "1e400" = JsNum.posInf := by
  have h : parseNumeral "1e400" = Numeral.decimal false 1 400 := by decide
  simp only [jsNumber, h, Numeral.toJsNum]
  apply roundDouble_overflow
  norm_num

theorem jsNumber_underflow : jsNumber "1e-400" = JsNum.fin 0 := by
  have h : parseNumeral "1e-400" = Numeral.decimal false 1 (-400) := by decide
  simp only [jsNumber, h, Numeral.toJsNum]
  apply roundDouble_underflow
  · norm_num
  · norm_num

theorem isPositiveInteger_iff (q : ℚ) :
    IsPositiveInteger (JsNum.fin q) ↔ ∃ n : Nat, 0 < n ∧ q = (n : ℚ) := by
  unfold IsPositiveInteger
  constructor
  · rintro ⟨n, hn, h⟩
    exact ⟨n, hn, by injection h⟩
  · rintro ⟨n, hn, h⟩
    exact ⟨n, hn, by rw [h]⟩

/-- C17, refuted as stated. The prior goal is 2000, a positive integer. With `2.5` in
the goal field the profile-save action stores the goal 2.5, which is not an integer;
with `1e400` it stores `Infinity`, which is not an integer either. -/
theorem saveProfile_goal_not_positive_integer :
    IsPositiveInteger profileYou.goal
    ∧ (saveProfile profileYou "" "2.5").goal = JsNum.fin (5 / 2)
    ∧ ¬ IsPositiveInteger (saveProfile profileYou "" "2.5").goal
    ∧ (saveProfile profileYou "" "1e400").goal = JsNum.posInf
    ∧ ¬ IsPositiveInteger (saveProfile profileYou "" "1e400").goal := by
  have h1 : (saveProfile profileYou "" "2.5").goal = JsNum.fin (5 / 2) := by
    simp only [saveProfile, jsNumber_fraction, JsNum.or, JsNum.truthy]
    norm_num
  have h2 : (saveProfile profileYou "" "1e400").goal = JsNum.posInf := by
    have hgoal : (saveProfile profileYou "" "1e400").goal
        = (jsNumber "1e400").or profileYou.goal := rfl
    rw [hgoal, jsNumber_overflow]
    simp [JsNum.or, JsNum.truthy]
  refine ⟨⟨2000, by decide, by simp [profileYou]⟩, h1, ?_, h2, ?_⟩
  · rw [h1, isPositiveInteger_iff]
    rintro ⟨n, _, h⟩
    have h4 : ((2 * n : Nat) : ℚ) = ((5 : Nat) : ℚ) := by
      push_cast
      linarith
    have h5 : 2 * n = 5 := by exact_mod_cast h4
    omega
  · rw [h2]
    rintro ⟨n, _, h⟩
    cases h

/-- C17, amended. For every prior profile with a positive integer goal and every value
of the goal field: when `Number` reads the value as `NaN` or as zero (an empty field,
`0`, a text that is no number, a literal so small that it rounds to 0 such as `1e-400`)
the profile-save action keeps the prior goal; when `Number` reads a positive value, the
goal becomes the value `Number` reads, which is the binary64 number nearest the text,
integer or not, and `Infinity` for a literal as large as `1e400`. So the goal stays a
positive integer whenever the value reads as `NaN`, as zero or as a positive integer.
The fields `""`, `"0"`, `"abc"`, `"1e-400"` and `"2500"` read as 0, 0, `NaN`, 0 and
2500. -/
theorem saveProfile_goal (profile : Profile) (displayName dailyGoal : String)
    (hprior : IsPositiveInteger profile.goal) :
    ((jsNumber dailyGoal = JsNum.nan ∨ jsNumber dailyGoal = JsNum.fin 0) →
        (saveProfile profile displayName dailyGoal).goal = profile.goal)
    ∧ (∀ q : ℚ, 0 < q → jsNumber dailyGoal = JsNum.fin q →
        (saveProfile profile displayName dailyGoal).goal = JsNum.fin q)
    ∧ (jsNumber dailyGoal = JsNum.posInf →
        (saveProfile profile displayName dailyGoal).goal = JsNum.posInf)
    ∧ ((jsNumber dailyGoal = JsNum.nan ∨ jsNumber dailyGoal = JsNum.fin 0
          ∨ IsPositiveInteger (jsNumber dailyGoal)) →
        IsPositiveInteger (saveProfile profile displayName dailyGoal).goal)
    ∧ (jsNumber "" = JsNum.fin 0 ∧ jsNumber "0" = JsNum.fin 0
        ∧ jsNumber "abc" = JsNum.nan ∧ jsNumber "1e-400" = JsNum.fin 0
        ∧ jsNumber "2500" = JsNum.fin 2500 ∧ jsNumber "1e400" = JsNum.posInf) := by
  have hkeep : (jsNumber dailyGoal = JsNum.nan ∨ jsNumber dailyGoal = JsNum.fin 0) →
      (saveProfile profile displayName dailyGoal).goal = profile.goal := by
    intro h
    rcases h with h | h
    · simp [saveProfile, h, JsNum.or, JsNum.truthy]
    · simp [saveProfile, h, JsNum.or, JsNum.truthy]
  have hset : ∀ q : ℚ, 0 < q → jsNumber dailyGoal = JsNum.fin q →
      (saveProfile profile displayName dailyGoal).goal = JsNum.fin q := by
    intro q hq h
    simp [saveProfile, h, JsNum.or, JsNum.truthy, ne_of_gt hq]
  have hinf : jsNumber dailyGoal = JsNum.posInf →
      (saveProfile profile displayName dailyGoal).goal = JsNum.posInf := by
    intro h
    simp [saveProfile, h, JsNum.or, JsNum.truthy]
  refine ⟨hkeep, hset, hinf, ?_, jsNumber_empty, jsNumber_zero, jsNumber_text,
    jsNumber_underflow, jsNumber_integer, jsNumber_overflow⟩
  intro h
  rcases h with h | h | h
  · rw [hkeep (Or.inl h)]
    exact hprior
  · rw [hkeep (Or.inr h)]
    exact hprior
  · obtain ⟨n, hn, hq⟩ := h
    have hpos : (0 : ℚ) < (n : ℚ) := by exact_mod_cast hn
    rw [hset (n : ℚ) hpos hq]
    exact ⟨n, hn, rfl⟩

/-- C17, amended, for the prior goal 2000: an empty goal field and the field `1e-400`
keep 2000, and the field `2500` gives the goal 2500. -/
theorem saveProfile_goal_witness :
    IsPositiveInteger profileYou.goal
    ∧ (saveProfile profileYou "Ana" "").goal = JsNum.fin 2000
    ∧ (saveProfile profileYou "Ana" "1e-400").goal = JsNum.fin 2000
    ∧ (saveProfile profileYou "Ana" "2500").goal = JsNum.fin 2500 := by
  have hprior : IsPositiveInteger profileYou.goal := ⟨2000, by decide, by simp [profileYou]⟩
  refine ⟨hprior, ?_, ?_, ?_⟩
  · exact (saveProfile_goal profileYou "Ana" "" hprior).1 (Or.inr jsNumber_empty)
  · exact (saveProfile_goal profileYou "Ana" "1e-400" hprior).1 (Or.inr jsNumber_underflow)
  · exact (saveProfile_goal profileYou "Ana" "2500" hprior).2.1 2500 (by norm_num)
      jsNumber_integer

theorem respondRequest_ok (env : Env) (w : World) (id status : String)
    (hupd : env.updateError = none) :
    respondRequest env w id status
      = Outcome.returned
          { w with
            remote := { w.remote with friendships := w.remote.friendships.map (fun row =>
              if row.id = id then { row with status := status } else row) },
            calls := w.calls ++ [Call.updateFriendship id status] } := by
  simp [respondRequest, Remote.updateFriendship, hupd, Outcome.catch]

theorem respondRequest_failed (env : Env) (w : World) (id status e : String)
    (hupd : env.updateError = some e) :
    respondRequest env w id status
      = Outcome.returned { w with calls := w.calls ++ [Call.updateFriendship id status] } := by
  simp [respondRequest, Remote.updateFriendship, hupd, Outcome.catch]

theorem mem_pendingFor (r : Remote) (me : String) (p : PendingRow) :
    p ∈ r.pendingFor me ↔
      ∃ row ∈ r.friendships, row.receiver_id = me ∧ row.status = "pending"
        ∧ p = { id := row.id, requester_id := row.requester_id,
                created_at := row.created_at } := by
  unfold Remote.pendingFor
  rw [List.mem_map]
  constructor
  · rintro ⟨row, hmem, hp⟩
    have hmem2 := (List.perm_insertionSort _ _).mem_iff.mp hmem
    rw [List.mem_filter] at hmem2
    have hcond : row.receiver_id = me ∧ row.status = "pending" := by simpa using hmem2.2
    exact ⟨row, hmem2.1, hcond.1, hcond.2, hp.symm⟩
  · rintro ⟨row, hmem, hrec, hst, hp⟩
    refine ⟨row, (List.perm_insertionSort _ _).mem_iff.mpr ?_, hp.symm⟩
    rw [List.mem_filter]
    exact ⟨hmem, by simp [hrec, hst]⟩

theorem mem_acceptedAsRequester (r : Remote) (me : String) (row : Friendship)
    (hmem : row ∈ r.friendships) (hreq : row.requester_id = me)
    (hst : row.status = "accepted") :
    ({ id := row.id, requester_id := row.requester_id, receiver_id := row.receiver_id }
      : AcceptedRow) ∈ r.acceptedAsRequester me := by
  unfold Remote.acceptedAsRequester
  rw [List.mem_map]
  refine ⟨row, ?_, rfl⟩
  rw [List.mem_filter]
  exact ⟨hmem, by simp [hreq, hst]⟩

theorem mem_acceptedAsReceiver (r : Remote) (me : String) (row : Friendship)
    (hmem : row ∈ r.friendships) (hrec : row.receiver_id = me)
    (hst : row.status = "accepted") :
    ({ id := row.id, requester_id := row.requester_id, receiver_id := row.receiver_id }
      : AcceptedRow) ∈ r.acceptedAsReceiver me := by
  unfold Remote.acceptedAsReceiver
  rw [List.mem_map]
  refine ⟨row, ?_, rfl⟩
  rw [List.mem_filter]
  exact ⟨hmem, by simp [hrec, hst]⟩

/-- The other party of an accepted row is in the accepted list of each party. -/
theorem other_mem_accepted (r : Remote) (row : Friendship) (hmem : row ∈ r.friendships)
    (hst : row.status = "accepted") (hR : row.requester_id ≠ "") (hV : row.receiver_id ≠ "") :
    row.receiver_id ∈
        ((r.acceptedAsRequester row.requester_id ++ r.acceptedAsReceiver row.requester_id).map
          (fun a => if a.requester_id = row.requester_id then a.receiver_id
            else a.requester_id)).filter (fun id => id != "")
    ∧ row.requester_id ∈
        ((r.acceptedAsRequester row.receiver_id ++ r.acceptedAsReceiver row.receiver_id).map
          (fun a => if a.requester_id = row.receiver_id then a.receiver_id
            else a.requester_id)).filter (fun id => id != "") := by
  constructor
  · rw [List.mem_filter, List.mem_map]
    refine ⟨⟨_, List.mem_append.mpr
      (Or.inl (mem_acceptedAsRequester r row.requester_id row hmem rfl hst)), ?_⟩, ?_⟩
    · simp
    · simpa using hV
  · rw [List.mem_filter, List.mem_map]
    refine ⟨⟨_, List.mem_append.mpr
      (Or.inr (mem_acceptedAsReceiver r row.receiver_id row hmem rfl hst)), ?_⟩, ?_⟩
    · by_cases h : row.requester_id = row.receiver_id
      · simp [h]
      · simp [h]
    · simpa using hR

/-- No row of the pending list has an id whose rows are all not pending. -/
theorem pendingFor_without (r : Remote) (me id : String)
    (h : ∀ x ∈ r.friendships, x.id = id → x.status ≠ "pending") :
    ∀ p ∈ r.pendingFor me, p.id ≠ id := by
  intro p hp
  obtain ⟨x, hmem, _, hst, hpeq⟩ := (mem_pendingFor r me p).mp hp
  intro hid
  rw [hpeq] at hid
  exact h x hmem hid hst

theorem loadPendingRequests_ok (env : Env) (w : World) (me : String)
    (huser : w.currentUser = some me) (hsel : env.selectError = none) :
    loadPendingRequests env w = some (w.remote.pendingFor me) := by
  simp [loadPendingRequests, huser, Remote.selectRows, hsel]

theorem loadAcceptedFriends_ok (env : Env) (w : World) (me : String)
    (huser : w.currentUser = some me) (hsel : env.selectError = none) :
    loadAcceptedFriends env w
      = some (((w.remote.acceptedAsRequester me ++ w.remote.acceptedAsReceiver me).map
          (fun r => if r.requester_id = me then r.receiver_id else r.requester_id)).filter
            (fun id => id != "")) := by
  simp [loadAcceptedFriends, huser, Remote.selectRows, hsel]

/-- C12. For every pending row of the store with requester `R` and receiver `V` (two
identities, so neither is the empty string), the row is in the pending list of `V`;
and after `respond(rowId, 'accepted')` succeeds, no row of that id is in the pending
list of `V`, the accepted list of `R` holds `V` and the accepted list of `V` holds
`R`. -/
theorem respond_accepted_moves_row (env : Env) (w : World) (row : Friendship)
    (hrow : row ∈ w.remote.friendships) (hpending : row.status = "pending")
    (hR : row.requester_id ≠ "") (hV : row.receiver_id ≠ "")
    (hupd : env.updateError = none) (hsel : env.selectError = none) :
    (∃ listed, loadPendingRequests env { w with currentUser := some row.receiver_id }
        = some listed ∧ ∃ p ∈ listed, p.id = row.id)
    ∧ ∃ w1 : World, respondRequest env w row.id "accepted" = Outcome.returned w1
      ∧ (∃ listed, loadPendingRequests env { w1 with currentUser := some row.receiver_id }
          = some listed ∧ ∀ p ∈ listed, p.id ≠ row.id)
      ∧ (∃ ids, loadAcceptedFriends env { w1 with currentUser := some row.requester_id }
          = some ids ∧ row.receiver_id ∈ ids)
      ∧ (∃ ids, loadAcceptedFriends env { w1 with currentUser := some row.receiver_id }
          = some ids ∧ row.requester_id ∈ ids) := by
  have hmapped : ({ row with status := "accepted" } : Friendship)
      ∈ w.remote.friendships.map (fun x =>
          if x.id = row.id then { x with status := "accepted" } else x) := by
    rw [List.mem_map]
    exact ⟨row, hrow, by simp⟩
  have hnone : ∀ x ∈ w.remote.friendships.map (fun x =>
      if x.id = row.id then { x with status := "accepted" } else x),
      x.id = row.id → x.status ≠ "pending" := by
    intro x hx hid
    rw [List.mem_map] at hx
    obtain ⟨y, _, hy⟩ := hx
    by_cases hyid : y.id = row.id
    · rw [if_pos hyid] at hy
      rw [← hy]
      simp
    · rw [if_neg hyid] at hy
      rw [← hy] at hid
      exact absurd hid hyid
  have hother := other_mem_accepted
    { w.remote with friendships := w.remote.friendships.map (fun x =>
        if x.id = row.id then { x with status := "accepted" } else x) }
    { row with status := "accepted" } hmapped rfl hR hV
  refine ⟨⟨_, loadPendingRequests_ok env _ row.receiver_id rfl hsel, ?_⟩,
    _, respondRequest_ok env w row.id "accepted" hupd,
    ⟨_, loadPendingRequests_ok env _ row.receiver_id rfl hsel, ?_⟩,
    ⟨_, loadAcceptedFriends_ok env _ row.requester_id rfl hsel, ?_⟩,
    ⟨_, loadAcceptedFriends_ok env _ row.receiver_id rfl hsel, ?_⟩⟩
  · exact ⟨_, (mem_pendingFor _ _ _).mpr ⟨row, hrow, rfl, hpending, rfl⟩, rfl⟩
  · exact pendingFor_without _ row.receiver_id row.id hnone
  · exact hother.1
  · exact hother.2

/-- C12 for the pending request of `alice` to `bob`: it is in the pending list of
`bob`; after `bob` accepts it, the pending list of `bob` is empty, the accepted list of
`alice` is `bob` and the accepted list of `bob` is `alice`. -/
theorem respond_accepted_moves_row_witness :
    (∃ listed, loadPendingRequests envOnline { worldPending with currentUser := some "bob" }
        = some listed ∧ ∃ p ∈ listed, p.id = "f-1")
    ∧ ∃ w1 : World, respondRequest envOnline worldPending "f-1" "accepted" = Outcome.returned w1
      ∧ (∃ listed, loadPendingRequests envOnline { w1 with currentUser := some "bob" }
          = some listed ∧ ∀ p ∈ listed, p.id ≠ "f-1")
      ∧ (∃ ids, loadAcceptedFriends envOnline { w1 with currentUser := some "alice" }
          = some ids ∧ "bob" ∈ ids)
      ∧ (∃ ids, loadAcceptedFriends envOnline { w1 with currentUser := some "bob" }
          = some ids ∧ "alice" ∈ ids) :=
  respond_accepted_moves_row envOnline worldPending requestAliceBob
    (by decide) rfl (by decide) (by decide) rfl rfl

/-- `sendFriendRequest` keeps every row of the store as it is and adds at most one
row, a pending request of the signed-in identity to the receiver. -/
theorem sendFriendRequest_friendships (env : Env) (w : World) (receiverId : String) :
    (sendFriendRequest env w receiverId).1.remote.friendships = w.remote.friendships
    ∨ ∃ me : String, w.currentUser = some me ∧ receiverId ≠ me
        ∧ (env.selectError = none → ∀ first : Friendship,
            (w.remote.between me receiverId).head? = some first →
            first.status ≠ "pending" ∧ first.status ≠ "accepted")
        ∧ (sendFriendRequest env w receiverId).1.remote.friendships
            = w.remote.friendships ++
                [{ id := env.rowId, requester_id := me, receiver_id := receiverId,
                   status := "pending", created_at := env.rowTime }] := by
  cases huser : w.currentUser with
  | none => left; simp [sendFriendRequest, huser]
  | some me =>
    by_cases hself : receiverId = me
    · left; simp [sendFriendRequest, huser, hself]
    · have hinsert : ∀ v : World, v.remote = w.remote →
          (insertRequest env v me receiverId).1.remote.friendships = w.remote.friendships
          ∨ (insertRequest env v me receiverId).1.remote.friendships
              = w.remote.friendships ++
                  [{ id := env.rowId, requester_id := me, receiver_id := receiverId,
                     status := "pending", created_at := env.rowTime }] := by
        intro v hv
        cases hins : env.insertError with
        | none => right; simp [insertRequest, Remote.insertFriendship, hins, hv]
        | some e => left; simp [insertRequest, Remote.insertFriendship, hins, hv]
      have hins := hinsert
        { w with calls := w.calls ++ [Call.selectFriendship me receiverId] } rfl
      cases hsel : env.selectError with
      | some e =>
        have hsend : sendFriendRequest env w receiverId
            = insertRequest env
                { w with calls := w.calls ++ [Call.selectFriendship me receiverId] }
                me receiverId := by
          simp [sendFriendRequest, huser, hself, Remote.selectFriendship, hsel]
        rw [hsend]
        rcases hins with h | h
        · exact Or.inl h
        · exact Or.inr ⟨me, rfl, hself, fun hc => Option.noConfusion hc, h⟩
      | none =>
        cases hl : w.remote.between me receiverId with
        | nil =>
          rw [sendFriendRequest_no_row env w me receiverId hself huser hl]
          rcases hins with h | h
          · exact Or.inl h
          · refine Or.inr ⟨me, rfl, hself, ?_, h⟩
            intro _ first hfirst
            rw [hl] at hfirst
            simp at hfirst
        | cons first rest =>
          rw [sendFriendRequest_row env w me receiverId first hself huser hsel
            (by rw [hl]; rfl)]
          by_cases hp : first.status = "pending"
          · left; rw [if_pos hp]
          · by_cases ha : first.status = "accepted"
            · left; rw [if_neg hp, if_pos ha]
            · rw [if_neg hp, if_neg ha]
              rcases hins with h | h
              · exact Or.inl h
              · refine Or.inr ⟨me, rfl, hself, ?_, h⟩
                intro _ first2 hfirst2
                rw [hl] at hfirst2
                have hsame : first = first2 := by simpa using hfirst2
                rw [← hsame]
                exact ⟨hp, ha⟩

/-- C13, refuted as stated. The request of `alice` to `bob` is accepted in the store:
`respond('f-1', 'rejected')` succeeds and leaves it rejected. The request is rejected in
the store: `respond('f-1', 'accepted')` succeeds and leaves it accepted. Neither status
is terminal. -/
theorem respondRequest_changes_final_status :
    (∃ w1 : World, respondRequest envOnline worldAccepted "f-1" "rejected" = Outcome.returned w1
      ∧ worldAccepted.remote.friendships = [{ requestAliceBob with status := "accepted" }]
      ∧ w1.remote.friendships = [{ requestAliceBob with status := "rejected" }])
    ∧ (∃ w1 : World, respondRequest envOnline worldRejected "f-1" "accepted" = Outcome.returned w1
      ∧ worldRejected.remote.friendships = [{ requestAliceBob with status := "rejected" }]
      ∧ w1.remote.friendships = [{ requestAliceBob with status := "accepted" }]) :=
  ⟨⟨_, respondRequest_ok envOnline worldAccepted "f-1" "rejected" rfl, by decide, by decide⟩,
   ⟨_, respondRequest_ok envOnline worldRejected "f-1" "accepted" rfl, by decide, by decide⟩⟩

/-- C13, amended. `sendRequest` changes the status of no row: it keeps every row as it
is and adds at most one row, which is pending. `respond(id, status)`, when the update
succeeds, gives the status to every row of that id whatever status the row had, and
leaves the other rows as they are; when the update fails the store is as it was;
either way it returns. Nothing in the component makes accepted or rejected terminal;
the rows the pending list offers for an answer are pending rows of the store. -/
theorem friendship_status_changes (env : Env) (w : World) :
    (∀ receiverId : String, ∃ added : List Friendship,
        (sendFriendRequest env w receiverId).1.remote.friendships
          = w.remote.friendships ++ added
        ∧ added.length ≤ 1 ∧ ∀ row ∈ added, row.status = "pending")
    ∧ (∀ id status : String, env.updateError = none →
        ∃ w1 : World, respondRequest env w id status = Outcome.returned w1
          ∧ w1.remote.friendships = w.remote.friendships.map (fun row =>
              if row.id = id then { row with status := status } else row))
    ∧ (∀ id status : String, env.updateError ≠ none →
        ∃ w1 : World, respondRequest env w id status = Outcome.returned w1
          ∧ w1.remote = w.remote)
    ∧ (∀ (listed : List PendingRow), loadPendingRequests env w = some listed →
        ∀ p ∈ listed, ∃ row ∈ w.remote.friendships, row.id = p.id ∧ row.status = "pending") := by
  refine ⟨?_, ?_, ?_, ?_⟩
  · intro receiverId
    rcases sendFriendRequest_friendships env w receiverId with h | ⟨me, _, _, _, h⟩
    · exact ⟨[], by simpa using h, by simp, by simp⟩
    · exact ⟨_, h, by simp, by simp⟩
  · intro id status hupd
    exact ⟨_, respondRequest_ok env w id status hupd, rfl⟩
  · intro id status hupd
    cases hu : env.updateError with
    | none => exact absurd hu hupd
    | some e => exact ⟨_, respondRequest_failed env w id status e hu, rfl⟩
  · intro listed hlisted p hp
    cases huser : w.currentUser with
    | none => simp [loadPendingRequests, huser] at hlisted
    | some me =>
      cases hsel : env.selectError with
      | some e => simp [loadPendingRequests, huser, Remote.selectRows, hsel] at hlisted
      | none =>
        rw [loadPendingRequests_ok env w me huser hsel] at hlisted
        have hl : w.remote.pendingFor me = listed := by simpa using hlisted
        rw [← hl] at hp
        obtain ⟨row, hmem, _, hst, hpeq⟩ := (mem_pendingFor _ _ _).mp hp
        exact ⟨row, hmem, by rw [hpeq], hst⟩

/-- C14, refuted as stated. The request of `alice` to `bob` is rejected in the store and
every remote call succeeds: `sendRequest(alice, bob)` alerts that the request was sent
and a pending row of the pair is stored after the rejected one, and so does
`sendRequest(bob, alice)`. -/
theorem sendFriendRequest_after_rejected_inserts :
    worldRejected.remote.friendships = [{ requestAliceBob with status := "rejected" }]
    ∧ sendFriendRequest envOnline worldRejected "bob"
        = ({ worldRejected with
             remote := { water_logs := [],
                         friendships := [{ requestAliceBob with status := "rejected" },
                           { id := "row-9", requester_id := "alice", receiver_id := "bob",
                             status := "pending",
                             created_at := "2024-05-02T12:00:00+00:00" }] },
             calls := [Call.selectFriendship "alice" "bob",
                       Call.insertFriendship "alice" "bob"] },
           "Friend request sent")
    ∧ sendFriendRequest envOnline { worldRejected with currentUser := some "bob" } "alice"
        = ({ worldRejected with
             currentUser := some "bob",
             remote := { water_logs := [],
                         friendships := [{ requestAliceBob with status := "rejected" },
                           { id := "row-9", requester_id := "bob", receiver_id := "alice",
                             status := "pending",
                             created_at := "2024-05-02T12:00:00+00:00" }] },
             calls := [Call.selectFriendship "bob" "alice",
                       Call.insertFriendship "bob" "alice"] },
           "Friend request sent") := by
  decide

/-- C14, amended. A rejected friendship does not block a new request. For all distinct
identities `A` and `B`: when the duplicate check is delivered and the row it returns
for the pair has status rejected, `sendRequest(A, B)` with `A` signed in, and
`sendRequest(B, A)` with `B` signed in, go on to the insert; when the insert succeeds
they alert that the request was sent and a new pending row of the pair is stored after
the rows already there. -/
theorem sendFriendRequest_after_rejected (env : Env) (w : World) (A B : String)
    (row : Friendship) (hAB : A ≠ B) (hcheck : env.selectError = none)
    (hrow : (w.remote.between A B).head? = some row) (hrejected : row.status = "rejected")
    (hins : env.insertError = none) :
    (w.currentUser = some A →
      sendFriendRequest env w B
        = ({ w with
             remote := { w.remote with friendships := w.remote.friendships ++
               [{ id := env.rowId, requester_id := A, receiver_id := B,
                  status := "pending", created_at := env.rowTime }] },
             calls := w.calls ++ [Call.selectFriendship A B, Call.insertFriendship A B] },
           "Friend request sent"))
    ∧ (w.currentUser = some B →
      sendFriendRequest env w A
        = ({ w with
             remote := { w.remote with friendships := w.remote.friendships ++
               [{ id := env.rowId, requester_id := B, receiver_id := A,
                  status := "pending", created_at := env.rowTime }] },
             calls := w.calls ++ [Call.selectFriendship B A, Call.insertFriendship B A] },
           "Friend request sent")) := by
  have hBA : B ≠ A := fun h => hAB h.symm
  have hnp : row.status ≠ "pending" := by rw [hrejected]; decide
  have hna : row.status ≠ "accepted" := by rw [hrejected]; decide
  constructor
  · intro huser
    rw [sendFriendRequest_row env w A B row hBA huser hcheck hrow, if_neg hnp, if_neg hna,
      insertRequest_ok env _ A B hins]
    simp
  · intro huser
    have hrow2 : (w.remote.between B A).head? = some row := by
      rw [between_comm]
      exact hrow
    rw [sendFriendRequest_row env w B A row hAB huser hcheck hrow2, if_neg hnp, if_neg hna,
      insertRequest_ok env _ B A hins]
    simp

/-- C14, amended, for the rejected request of `alice` to `bob`: a new request of `alice`
is sent and stored. -/
theorem sendFriendRequest_after_rejected_witness :
    (sendFriendRequest envOnline worldRejected "bob").2 = "Friend request sent"
    ∧ (sendFriendRequest envOnline worldRejected "bob").1.remote.friendships
        = [{ requestAliceBob with status := "rejected" },
           { id := "row-9", requester_id := "alice", receiver_id := "bob",
             status := "pending", created_at := "2024-05-02T12:00:00+00:00" }] := by
  have h := (sendFriendRequest_after_rejected envOnline worldRejected "alice" "bob"
    { requestAliceBob with status := "rejected" } (by decide) rfl (by decide) rfl rfl).1 rfl
  rw [h]
  exact ⟨rfl, by decide⟩

theorem run_send_friendships (env : Env) (w : World) (me other : String) :
    ((FriendOp.send env me other).run w).remote.friendships = w.remote.friendships
    ∨ (other ≠ me
        ∧ (env.selectError = none → ∀ first : Friendship,
            (w.remote.between me other).head? = some first →
            first.status ≠ "pending" ∧ first.status ≠ "accepted")
        ∧ ((FriendOp.send env me other).run w).remote.friendships
            = w.remote.friendships ++
                [{ id := env.rowId, requester_id := me, receiver_id := other,
                   status := "pending", created_at := env.rowTime }]) := by
  rcases sendFriendRequest_friendships env { w with currentUser := some me } other with
    h | ⟨me1, huser, hne, hfirst, h⟩
  · exact Or.inl h
  · have hme : me = me1 := by simpa using huser
    subst hme
    exact Or.inr ⟨hne, hfirst, h⟩

theorem run_respond_friendships (env : Env) (w : World) (id : String) (answer : Answer) :
    ((FriendOp.respond env id answer).run w).remote.friendships = w.remote.friendships
    ∨ ((FriendOp.respond env id answer).run w).remote.friendships
        = w.remote.friendships.map (fun row =>
            if row.id = id then { row with status := answer.status } else row) := by
  cases hupd : env.updateError with
  | none =>
    right
    simp [FriendOp.run, respondRequest_ok env w id answer.status hupd]
  | some e =>
    left
    simp [FriendOp.run, respondRequest_failed env w id answer.status e hupd]

/-- No operation stores a request of an identity to itself. -/
theorem run_noSelfRequest (w : World) (op : FriendOp) (h : NoSelfRequest w.remote) :
    NoSelfRequest (op.run w).remote := by
  cases op with
  | send env me other =>
    rcases run_send_friendships env w me other with hsame | ⟨hne, _, happ⟩
    · intro row hrow
      rw [hsame] at hrow
      exact h row hrow
    · intro row hrow
      rw [happ, List.mem_append] at hrow
      rcases hrow with hold | hnew
      · exact h row hold
      · have hrow2 : row =
            { id := env.rowId, requester_id := me, receiver_id := other,
              status := "pending", created_at := env.rowTime } := by
          simpa using hnew
        rw [hrow2]
        exact fun hc => hne hc.symm
  | respond env id answer =>
    rcases run_respond_friendships env w id answer with hsame | hmap
    · intro row hrow
      rw [hsame] at hrow
      exact h row hrow
    · intro row hrow
      rw [hmap, List.mem_map] at hrow
      obtain ⟨x, hx, hxrow⟩ := hrow
      have hx2 := h x hx
      by_cases hid : x.id = id
      · rw [if_pos hid] at hxrow
        rw [← hxrow]
        exact hx2
      · rw [if_neg hid] at hxrow
        rw [← hxrow]
        exact hx2

theorem between_eq_filter (r : Remote) (a b : String) :
    r.between a b = r.friendships.filter (fun row =>
      (row.requester_id == a && row.receiver_id == b) ||
      (row.requester_id == b && row.receiver_id == a)) := rfl

/-- Every status is one of the three of the lifecycle. -/
theorem run_keeps_statuses (w : World) (op : FriendOp)
    (hstatus : ∀ row ∈ w.remote.friendships,
      row.status = "pending" ∨ row.status = "accepted" ∨ row.status = "rejected") :
    ∀ row ∈ (op.run w).remote.friendships,
      row.status = "pending" ∨ row.status = "accepted" ∨ row.status = "rejected" := by
  cases op with
  | send env me other =>
    rcases run_send_friendships env w me other with hsame | ⟨_, _, happ⟩
    · intro row hrow
      rw [hsame] at hrow
      exact hstatus row hrow
    · intro row hrow
      rw [happ, List.mem_append] at hrow
      rcases hrow with hold | hnew
      · exact hstatus row hold
      · have hrow2 : row =
            { id := env.rowId, requester_id := me, receiver_id := other,
              status := "pending", created_at := env.rowTime } := by
          simpa using hnew
        rw [hrow2]
        exact Or.inl rfl
  | respond env id answer =>
    rcases run_respond_friendships env w id answer with hsame | hmap
    · intro row hrow
      rw [hsame] at hrow
      exact hstatus row hrow
    · intro row hrow
      rw [hmap, List.mem_map] at hrow
      obtain ⟨x, hx, hxrow⟩ := hrow
      by_cases hid : x.id = id
      · rw [if_pos hid] at hxrow
        rw [← hxrow]
        cases answer with
        | accepted => exact Or.inr (Or.inl rfl)
        | rejected => exact Or.inr (Or.inr rfl)
      · rw [if_neg hid] at hxrow
        rw [← hxrow]
        exact hstatus x hx

/-- The rows of a pair after the status of the rows of one id is set. -/
theorem between_map_status (r : Remote) (id status a b : String) :
    ({ r with friendships := r.friendships.map (fun row =>
        if row.id = id then { row with status := status } else row) } : Remote).between a b
      = (r.between a b).map (fun row =>
          if row.id = id then { row with status := status } else row) := by
  simp only [between_eq_filter, List.filter_map]
  congr 1
  apply List.filter_congr
  intro row _
  by_cases hid : row.id = id
  · simp [Function.comp, hid]
  · simp [Function.comp, hid]

theorem runOps_noSelfRequest (ops : List FriendOp) (w : World) (h : NoSelfRequest w.remote) :
    NoSelfRequest (runOps w ops).remote := by
  induction ops generalizing w with
  | nil => exact h
  | cons op rest ih => exact ih (op.run w) (run_noSelfRequest w op h)

theorem mem_of_mem_between (r : Remote) (a b : String) (row : Friendship)
    (h : row ∈ r.between a b) : row ∈ r.friendships := by
  rw [between_eq_filter] at h
  exact (List.mem_filter.mp h).1

theorem filter_length_le_of_imp {α : Type} (l : List α) (p q : α → Bool)
    (h : ∀ x ∈ l, p x = true → q x = true) :
    (l.filter p).length ≤ (l.filter q).length := by
  induction l with
  | nil => simp
  | cons x rest ih =>
    have ih2 := ih (fun y hy => h y (List.mem_cons_of_mem _ hy))
    by_cases hp : p x = true
    · have hq := h x (List.mem_cons_self _ _) hp
      simp only [List.filter_cons, hp, hq, if_true, List.length_cons]
      omega
    · have hp2 : p x = false := Bool.eq_false_iff.mpr hp
      by_cases hq : q x = true
      · simp only [List.filter_cons, hp2, hq, if_true, List.length_cons]
        simp only [Bool.false_eq_true, if_false]
        omega
      · have hq2 : q x = false := Bool.eq_false_iff.mpr hq
        simp only [List.filter_cons, hp2, hq2, Bool.false_eq_true, if_false]
        exact ih2

/-- An answer that keeps to the lifecycle adds no row that is not rejected to a pair. -/
theorem run_respond_nonRejected (env : Env) (w : World) (id : String) (answer : Answer)
    (hlife : (FriendOp.respond env id answer).inLifecycle w = true) (a b : String) :
    (((FriendOp.respond env id answer).run w).remote.nonRejectedBetween a b).length
      ≤ (w.remote.nonRejectedBetween a b).length := by
  rcases run_respond_friendships env w id answer with hsame | hmap
  · unfold Remote.nonRejectedBetween
    rw [between_eq_filter, hsame]
    exact le_refl _
  · have hbetween : ((FriendOp.respond env id answer).run w).remote.between a b
        = (w.remote.between a b).map (fun row =>
            if row.id = id then { row with status := answer.status } else row) := by
      rw [← between_map_status w.remote id answer.status a b, between_eq_filter, hmap]
      rfl
    unfold Remote.nonRejectedBetween
    rw [hbetween, List.filter_map, List.length_map]
    have hsub : ∀ row ∈ w.remote.between a b,
        ((fun row : Friendship => row.status != "rejected") ∘
          (fun row : Friendship =>
            if row.id = id then { row with status := answer.status } else row)) row = true →
        (fun row : Friendship => row.status != "rejected") row = true := by
      intro row hrow hnew
      by_cases hid : row.id = id
      · cases answer with
        | accepted =>
          have hall : w.remote.friendships.all
              (fun row => row.id != id || row.status != "rejected") = true := hlife
          rw [List.all_eq_true] at hall
          have := hall row (mem_of_mem_between _ _ _ _ hrow)
          simpa [hid] using this
        | rejected =>
          simp [Function.comp, hid, Answer.status] at hnew
      · simpa [Function.comp, hid] using hnew
    exact filter_length_le_of_imp _ _ _ hsub

/-- A request that keeps to the lifecycle leaves at most one row that is not rejected
for each pair. -/
theorem run_send_nonRejected (env : Env) (w : World) (me other : String)
    (hstatus : ∀ row ∈ w.remote.friendships,
      row.status = "pending" ∨ row.status = "accepted" ∨ row.status = "rejected")
    (hsingle : AtMostOneNonRejected w.remote)
    (hlife : (FriendOp.send env me other).inLifecycle w = true) :
    AtMostOneNonRejected ((FriendOp.send env me other).run w).remote := by
  simp only [FriendOp.inLifecycle, Bool.and_eq_true, Bool.or_eq_true] at hlife
  obtain ⟨hsel, hseen⟩ := hlife
  have hsel2 : env.selectError = none := by
    cases hs : env.selectError with
    | none => rfl
    | some e => rw [hs] at hsel; cases hsel
  rcases run_send_friendships env w me other with hsame | ⟨_, hfirst, happ⟩
  · intro a b
    unfold Remote.nonRejectedBetween
    rw [between_eq_filter, hsame]
    exact hsingle a b
  · have hnone : w.remote.nonRejectedBetween me other = [] := by
      rcases hseen with hempty | hrow
      · exact List.isEmpty_iff.mp hempty
      · cases hl : (w.remote.between me other).head? with
        | none => rw [hl] at hrow; cases hrow
        | some first =>
          rw [hl] at hrow
          have hnot : first.status ≠ "rejected" := by simpa using hrow
          have hbad := hfirst hsel2 first hl
          have hmem : first ∈ w.remote.friendships :=
            mem_of_mem_between _ _ _ _ (List.mem_of_mem_head? hl)
          rcases hstatus first hmem with h | h | h
          · exact absurd h hbad.1
          · exact absurd h hbad.2
          · exact absurd h hnot
    intro a b
    unfold Remote.nonRejectedBetween
    rw [between_eq_filter, happ, List.filter_append, List.filter_append, List.length_append]
    by_cases hpair : (me = a ∧ other = b) ∨ (me = b ∧ other = a)
    · have hab : w.remote.nonRejectedBetween a b = [] := by
        rcases hpair with ⟨h1, h2⟩ | ⟨h1, h2⟩
        · rw [← h1, ← h2]
          exact hnone
        · unfold Remote.nonRejectedBetween
          rw [← h1, ← h2, between_comm]
          exact hnone
      unfold Remote.nonRejectedBetween at hab
      rw [between_eq_filter] at hab
      rw [hab]
      simp only [List.length_nil, Nat.zero_add]
      exact (List.length_filter_le _ _).trans ((List.length_filter_le _ _).trans (by simp))
    · have hnew :
          [({ id := env.rowId, requester_id := me, receiver_id := other,
              status := "pending", created_at := env.rowTime } : Friendship)].filter
          (fun row => (row.requester_id == a && row.receiver_id == b) ||
            (row.requester_id == b && row.receiver_id == a)) = [] := by
        rw [List.filter_eq_nil_iff]
        intro row hrow
        have hrow2 : row =
            { id := env.rowId, requester_id := me, receiver_id := other,
              status := "pending", created_at := env.rowTime } := by
          simpa using hrow
        rw [hrow2]
        simpa using hpair
      rw [hnew]
      exact hsingle a b

theorem runOps_in_lifecycle (ops : List FriendOp) (w : World)
    (hstatus : ∀ row ∈ w.remote.friendships,
      row.status = "pending" ∨ row.status = "accepted" ∨ row.status = "rejected")
    (hsingle : AtMostOneNonRejected w.remote) (hlife : allInLifecycle w ops = true) :
    AtMostOneNonRejected (runOps w ops).remote
    ∧ ∀ row ∈ (runOps w ops).remote.friendships,
        row.status = "pending" ∨ row.status = "accepted" ∨ row.status = "rejected" := by
  induction ops generalizing w with
  | nil => exact ⟨hsingle, hstatus⟩
  | cons op rest ih =>
    simp only [allInLifecycle, Bool.and_eq_true] at hlife
    have hstep : AtMostOneNonRejected (op.run w).remote := by
      cases op with
      | send env me other => exact run_send_nonRejected env w me other hstatus hsingle hlife.1
      | respond env id answer =>
        intro a b
        exact (run_respond_nonRejected env w id answer hlife.1 a b).trans (hsingle a b)
    exact ih (op.run w) (run_keeps_statuses w op hstatus) hstep hlife.2

/-- The duplicate check asks for one row of the pair: `alice` asks `bob`, `bob` rejects,
`alice` asks again and then a third time. The third check returns the rejected row,
the first of the pair, and a second pending row of the pair is stored. -/
theorem runOps_asked_thrice :
    (runOps worldEmpty opsAskedThrice).remote.friendships
      = [{ id := "f-1", requester_id := "alice", receiver_id := "bob",
           status := "rejected", created_at := "2024-05-02T12:00:00+00:00" },
         { id := "f-2", requester_id := "alice", receiver_id := "bob",
           status := "pending", created_at := "2024-05-02T12:00:00+00:00" },
         { id := "f-3", requester_id := "alice", receiver_id := "bob",
           status := "pending", created_at := "2024-05-02T12:00:00+00:00" }] := by
  decide

/-- C11, refuted as stated. From the empty store, every duplicate check delivered:
`alice` asks `bob`, `bob` rejects, `alice` asks again, and then the first, rejected
request is accepted. Each request is stored while the pair holds no row that is not
rejected, and `respond` changes the status of the rejected row: the store ends with an
accepted and a pending row of the pair, two rows that are not rejected. -/
theorem friendship_invariant_broken :
    worldEmpty.remote.friendships = []
    ∧ (∀ op ∈ opsAcceptedLate, op.checkSucceeds)
    ∧ (runOps worldEmpty (opsAcceptedLate.take 2)).remote.nonRejectedBetween "alice" "bob" = []
    ∧ (runOps worldEmpty (opsAcceptedLate.take 3)).remote.friendships
        = [{ id := "f-1", requester_id := "alice", receiver_id := "bob",
             status := "rejected", created_at := "2024-05-02T12:00:00+00:00" },
           { id := "f-2", requester_id := "alice", receiver_id := "bob",
             status := "pending", created_at := "2024-05-02T12:00:00+00:00" }]
    ∧ (runOps worldEmpty opsAcceptedLate).remote.friendships
        = [{ id := "f-1", requester_id := "alice", receiver_id := "bob",
             status := "accepted", created_at := "2024-05-02T12:00:00+00:00" },
           { id := "f-2", requester_id := "alice", receiver_id := "bob",
             status := "pending", created_at := "2024-05-02T12:00:00+00:00" }]
    ∧ ¬ AtMostOneNonRejected (runOps worldEmpty opsAcceptedLate).remote := by
  have h2 : ((runOps worldEmpty opsAcceptedLate).remote.nonRejectedBetween "alice" "bob").length
      = 2 := by decide
  refine ⟨rfl, ?_, by decide, by decide, by decide, ?_⟩
  · intro op hop
    simp only [opsAcceptedLate, List.mem_cons, List.mem_singleton, List.mem_nil_iff,
      or_false] at hop
    rcases hop with h | h | h | h <;> rw [h] <;> first | rfl | trivial
  · intro hinv
    have := hinv "alice" "bob"
    omega

/-- C11, amended. From an empty friendship store, after every sequence of `sendRequest`
and `respond` operations, every row has a requester other than its receiver. When
moreover every operation keeps to the lifecycle in the state it is run in (the
duplicate check of a request is delivered and returns a row that is not rejected when
the pair holds one; an acceptance is of an id none of whose rows is rejected; a
rejection is always allowed), the store holds at most one non-rejected row per
unordered pair of identities, and every status is pending, accepted or rejected. -/
theorem friendship_invariant (w : World) (ops : List FriendOp)
    (hempty : w.remote.friendships = []) :
    NoSelfRequest (runOps w ops).remote
    ∧ (allInLifecycle w ops = true →
        AtMostOneNonRejected (runOps w ops).remote
        ∧ ∀ row ∈ (runOps w ops).remote.friendships,
            row.status = "pending" ∨ row.status = "accepted" ∨ row.status = "rejected") := by
  constructor
  · apply runOps_noSelfRequest
    intro row hrow
    rw [hempty] at hrow
    cases hrow
  · intro hlife
    apply runOps_in_lifecycle ops w _ _ hlife
    · intro row hrow
      rw [hempty] at hrow
      cases hrow
    · intro a b
      unfold Remote.nonRejectedBetween
      rw [between_eq_filter, hempty]
      simp

/-- C11, amended, for the sequence in which `alice` asks `bob`, `bob` rejects, `alice`
asks again, `bob` accepts the second request, `alice` asks `carol` and `carol`
rejects: every operation keeps to the lifecycle, and the store ends with the rejected
and the accepted row of `alice` and `bob` and the rejected row of `alice` and
`carol`. -/
theorem friendship_invariant_witness :
    worldEmpty.remote.friendships = []
    ∧ allInLifecycle worldEmpty opsAskedAgain = true
    ∧ (runOps worldEmpty opsAskedAgain).remote.friendships
        = [{ id := "f-1", requester_id := "alice", receiver_id := "bob",
             status := "rejected", created_at := "2024-05-02T12:00:00+00:00" },
           { id := "f-2", requester_id := "alice", receiver_id := "bob",
             status := "accepted", created_at := "2024-05-02T12:00:00+00:00" },
           { id := "f-3", requester_id := "alice", receiver_id := "carol",
             status := "rejected", created_at := "2024-05-02T12:00:00+00:00" }]
    ∧ NoSelfRequest (runOps worldEmpty opsAskedAgain).remote
    ∧ AtMostOneNonRejected (runOps worldEmpty opsAskedAgain).remote := by
  have h := friendship_invariant worldEmpty opsAskedAgain rfl
  have hlife : allInLifecycle worldEmpty opsAskedAgain = true := by decide
  exact ⟨rfl, hlife, by decide, h.1, (h.2 hlife).1⟩

end Hydrate
